import Mathlib

/-!
Shallow embedding of the film-crew-ai screenplay parsing engine.

The definitions below are translated from the Python sources:
  * `src/film-crew-ai/film_crew_ai_advanced.py` (class AdvancedScriptParser),
  * `src/film_crew_ai.py` (class ScriptParser),
  * `src/film-crew-ai/archive/film_crew_ai_enhanced.py` (scene-number suffixes).

Python strings are modelled as Lean `String` with character-based slicing
(Python slices are by code point, as are `String.take` and `String.drop`).
Python `dict` accesses on the per-scene dictionaries built by
`_extract_scenes` are modelled with `Option` fields; a lookup of a missing
key produces `Except.error (PyErr.keyError k)`, mirroring Python KeyError.
The regular expressions used by the parser are small, and each is embedded
as an explicit matching function whose backtracking behaviour (lazy groups,
greedy whitespace) was derived by hand from the pattern; comments on each
function record the pattern it implements.
-/

namespace FilmCrew

/-- Python whitespace class: the characters matched by the regex class
backslash-s and stripped by str.strip(). -/
def pyIsSpace (c : Char) : Bool :=
  c = ' ' || c = '\t' || c = '\n' || c = '\r' || c = '\x0b' || c = '\x0c'

/-- Python str.strip() with no arguments: remove leading and trailing
whitespace. -/
def pyStrip (s : String) : String :=
  String.mk (((s.toList.dropWhile pyIsSpace).reverse.dropWhile pyIsSpace).reverse)

/-- List prefix test on characters. -/
def listStartsWith : List Char → List Char → Bool
  | [], _ => true
  | _ :: _, [] => false
  | a :: as, b :: bs => a = b && listStartsWith as bs

/-- Contiguous-sublist occurrence test on characters. -/
def listHasInfix (needle : List Char) : List Char → Bool
  | [] => needle.isEmpty
  | c :: rest => listStartsWith needle (c :: rest) || listHasInfix needle rest

/-- Python substring membership test, needle in haystack. -/
def pyIn (needle hay : String) : Bool :=
  listHasInfix needle.toList hay.toList

/-- Character count of a string (Python len on str). -/
def pyLen (s : String) : Nat := s.toList.length

/-- Python s[:n] by characters. -/
def pyTake (s : String) (n : Nat) : String := String.mk (s.toList.take n)

/-- Python s[n:] by characters. -/
def pyDrop (s : String) (n : Nat) : String := String.mk (s.toList.drop n)

/-- Python s[-n:] by characters. -/
def pyTakeRight (s : String) (n : Nat) : String :=
  String.mk (s.toList.drop (s.toList.length - n))

/-- Splitter for Python s.split(newline), accumulating the current piece
in reverse. -/
def splitLinesGo : List Char → List Char → List String
  | acc, [] => [String.mk acc.reverse]
  | acc, c :: rest =>
    if c = '\n' then String.mk acc.reverse :: splitLinesGo [] rest
    else splitLinesGo (c :: acc) rest

/-- Python s.split(newline): like String.splitOn, written with structural
recursion so that closed terms evaluate inside the kernel. -/
def pySplitLines (s : String) : List String := splitLinesGo [] s.toList

/-- Python str.upper() for the ASCII texts at hand. -/
def pyUpper (s : String) : String := String.mk (s.toList.map Char.toUpper)

/-- Python str.lower() for the ASCII texts at hand. -/
def pyLower (s : String) : String := String.mk (s.toList.map Char.toLower)

/-- Replace every non-overlapping occurrence of old, scanning left to
right; the fuel argument (the text length) keeps the recursion
structural. -/
def replaceGo (old new : List Char) : Nat → List Char → List Char
  | 0, s => s
  | _ + 1, [] => []
  | fuel + 1, c :: rest =>
    if listStartsWith old (c :: rest) then
      new ++ replaceGo old new fuel ((c :: rest).drop old.length)
    else c :: replaceGo old new fuel rest

/-- Python str.replace(old, new) for nonempty old. -/
def pyReplace (s old new : String) : String :=
  if old.toList.isEmpty then s
  else String.mk (replaceGo old.toList new.toList s.toList.length s.toList)

/-- Python str.isupper(): at least one cased character and no lowercase
cased character (ASCII letters are the cased characters that occur here). -/
def pyIsUpper (s : String) : Bool :=
  s.toList.any (fun c => c.isUpper || c.isLower) && s.toList.all (fun c => !c.isLower)

/-- Python s[a:b] slicing with character indices (0 <= a <= b). -/
def pySlice (s : String) (a b : Nat) : String :=
  pyTake (pyDrop s a) (b - a)

/-- Python str.split() with no arguments: split on whitespace runs,
dropping empty pieces. -/
def pyWords (s : String) : List String :=
  (s.toList.splitOnP pyIsSpace).filterMap
    (fun cs => if cs.isEmpty then none else some (String.mk cs))

/-- Python space-join of a list of strings. -/
def joinSpace : List String → String
  | [] => ""
  | a :: rest => rest.foldl (fun acc x => acc ++ " " ++ x) a

/-- Python str.rstrip(chr(58)): remove trailing colon characters. -/
def stripTrailingColons (s : String) : String :=
  String.mk ((s.toList.reverse.dropWhile (· = ':')).reverse)

/-- The word CONT-apostrophe-D, one of the continuity markers; built with
Char.ofNat 39 for the apostrophe. -/
def contD : String := "CONT" ++ String.singleton (Char.ofNat 39) ++ "D"

/-- Word characters for the regex word-boundary assertion: ASCII letters,
digits and underscore. -/
def isWordChar (c : Char) : Bool :=
  c.isAlpha || c.isDigit || c = '_'

/-- Case-insensitive match of keyword kw at the head of hay. -/
def kwHead (kw hay : List Char) : Bool :=
  match kw, hay with
  | [], _ => true
  | _ :: _, [] => false
  | k :: ks, h :: hs => (k.toLower = h.toLower) && kwHead ks hs

/-- Test for a word-boundary-delimited, case-insensitive occurrence of kw
in hay, starting at the current head of hay; prev is the character just
before the current position, if any.  All keywords used by the parser
start with a letter, so the leading boundary requires prev to be a
non-word character (or the string start); the trailing boundary depends on
whether the keyword ends in a word character. -/
def kwSearchAux (kw : List Char) (lastIsWord : Bool) : Option Char → List Char → Bool
  | _, [] => false
  | prev, c :: rest =>
    let okBefore := match prev with
      | none => true
      | some p => !isWordChar p
    let okHere := okBefore && kwHead kw (c :: rest) &&
      (let after := (c :: rest).drop kw.length
       if lastIsWord then
         match after with
         | [] => true
         | a :: _ => !isWordChar a
       else
         match after with
         | [] => false
         | a :: _ => isWordChar a)
    okHere || kwSearchAux kw lastIsWord (some c) rest

/-- Regex search for a single alternative wrapped in word boundaries,
case-insensitively: the embedding of re.search for one branch of a
pattern of the shape boundary-(A|B|...)-boundary with re.IGNORECASE. -/
def kwSearch (kw : String) (hay : String) : Bool :=
  let kcs := kw.toList
  let lastIsWord := match kcs.getLast? with
    | some c => isWordChar c
    | none => true
  kwSearchAux kcs lastIsWord none hay.toList

/-- Search for any alternative of a keyword family. -/
def famSearch (alts : List String) (hay : String) : Bool :=
  alts.any (fun a => kwSearch a hay)

end FilmCrew

namespace FilmCrew

/-! Embedding of the scene-heading regular expression

    (INT.|EXT.|INT/EXT.|I/E.) ws+ (.+?) ws* dash ws* (.+?) (ws* dash ws* (.+))? eol

with the lazy groups resolved by hand.  The location group ends at the
first dash reachable after the mandatory whitespace; the time group ends
before the first later dash that still has at least one character after
it, else it runs to the end of the line.  The greedy leading whitespace
backtracks by exactly one character in the degenerate cases where the
first dash directly follows the whitespace run or the tail is all
whitespace, which the branches below reproduce. -/

/-- Index of the first character from position from on that satisfies p. -/
def firstIdxFrom (p : Char → Bool) : List Char → Nat → Option Nat
  | [], _ => none
  | c :: rest, 0 => if p c then some 0 else (firstIdxFrom p rest 0).map (· + 1)
  | _ :: rest, n + 1 => (firstIdxFrom p rest n).map (· + 1)

/-- Start index of the maximal whitespace run ending just before index d. -/
def wsRunStart (cs : List Char) (d : Nat) : Nat :=
  d - ((cs.take d).reverse.takeWhile pyIsSpace).length

/-- Dash class of the advanced parser pattern: hyphen, en dash, em dash. -/
def advDash (c : Char) : Bool := c = '-' || c = '–' || c = '—'

/-- Dash class of the basic parser pattern: the source file contains the
en dash as three mis-decoded bytes, so the class is a hyphen plus those
three literal characters. -/
def basicDash (c : Char) : Bool := c = '-' || c = 'â' || c = '€' || c = '“'

/-- Resolve ws+ (.+?) ws* dash on the text after the INT./EXT. marker:
returns the location group and the text after the dash, or none when the
pattern cannot match.  The dash must leave at least one character after
it, because the rest of the pattern still needs a nonempty time group. -/
def split1 (dash : Char → Bool) (rest0 : List Char) : Option (List Char × List Char) :=
  let len := rest0.length
  let m := (rest0.takeWhile pyIsSpace).length
  if m = 0 || len ≤ m then none
  else
    let fallback : Option (List Char × List Char) :=
      if 2 ≤ m && (match (rest0.drop m).head? with | some c => dash c | none => false)
          && m + 1 < len then
        some ((rest0.drop (m - 1)).take 1, rest0.drop (m + 1))
      else none
    match firstIdxFrom dash rest0 (m + 1) with
    | some d =>
      if d + 1 < len then
        let e := max (m + 1) (wsRunStart rest0 d)
        some ((rest0.drop m).take (e - m), rest0.drop (d + 1))
      else fallback
    | none => fallback

/-- Resolve ws* (.+?) (ws* dash ws* (.+))? eol on the text after the first
dash: returns the time group and the optional extra group. -/
def split2 (dash : Char → Bool) (rest1 : List Char) :
    Option (List Char × Option (List Char)) :=
  let len := rest1.length
  if len = 0 then none
  else
    let m2 := (rest1.takeWhile pyIsSpace).length
    if m2 = len then some (rest1.drop (len - 1), none)
    else
      match firstIdxFrom dash rest1 (m2 + 1) with
      | some d =>
        if d + 1 < len then
          let e := max (m2 + 1) (wsRunStart rest1 d)
          let s2 := rest1.drop (d + 1)
          let k := min (s2.takeWhile pyIsSpace).length (s2.length - 1)
          some ((rest1.drop m2).take (e - m2), some (s2.drop k))
        else some (rest1.drop m2, none)
      | none => some (rest1.drop m2, none)

/-- Resolve ws* (.+) eol, the greedy tail of the basic parser pattern:
the whole remaining text with leading whitespace stripped, except that at
least one character must remain. -/
def greedyTail (rest1 : List Char) : Option (List Char) :=
  if rest1.length = 0 then none
  else
    let k := min (rest1.takeWhile pyIsSpace).length (rest1.length - 1)
    some (rest1.drop k)

/-- Try the INT./EXT. alternatives in pattern order at the head of the
line; returns the raw matched text and the remainder. -/
def leadMatch (cands : List String) (ci : Bool) (line : List Char) :
    Option (List Char × List Char) :=
  cands.findSome? (fun cand =>
    let cl := cand.toList
    if (if ci then kwHead cl line else listStartsWith cl line) then
      some (line.take cl.length, line.drop cl.length)
    else none)

/-- Captures of a matched scene heading line. -/
structure HeadingCaps where
  lead : String
  loc : String
  time : String
  extra : Option String
deriving Repr, DecidableEq

/-- The advanced parser scene_pattern applied to one line (the pattern is
MULTILINE and every match spans one full line), case-insensitively. -/
def advHeading (line : String) : Option HeadingCaps :=
  match leadMatch ["INT.", "EXT.", "INT/EXT.", "I/E."] true line.toList with
  | none => none
  | some (raw, rest0) =>
    match split1 advDash rest0 with
    | none => none
    | some (g2, rest1) =>
      match split2 advDash rest1 with
      | none => none
      | some (g3, ex) => some ⟨String.mk raw, String.mk g2, String.mk g3, ex.map String.mk⟩

/-- The basic parser scene_pattern applied to one line: case-sensitive,
mojibake dash class, greedy time group, no extra group. -/
def basicHeading (line : String) : Option (String × String × String) :=
  match leadMatch ["INT.", "EXT.", "INT/EXT."] false line.toList with
  | none => none
  | some (raw, rest0) =>
    match split1 basicDash rest0 with
    | none => none
    | some (g2, rest1) =>
      match greedyTail rest1 with
      | none => none
      | some g3 => some (String.mk raw, String.mk g2, String.mk g3)

/-- Character class of the advanced character-name group: uppercase ASCII
letters, whitespace and periods. -/
def cueClass (c : Char) : Bool := c.isUpper || pyIsSpace c || c = '.'

/-- The advanced vo_pattern, name group followed by the literal (V.O.)
suffix at the end of the line; returns the stripped captured name. -/
def voCue (line : String) : Option String :=
  let cs := line.toList
  let n := cs.length
  if n < 8 then none
  else
    let pre := cs.take (n - 6)
    let suf := cs.drop (n - 6)
    if suf = "(V.O.)".toList && 2 ≤ pre.length &&
        (match pre.head? with | some c => c.isUpper | none => false) &&
        (pre.drop 1).all cueClass then
      some (pyStrip (String.mk pre))
    else none

/-- The advanced character_pattern: a name in the cue class, length at
least two, starting with an uppercase letter, optionally followed by a
single trailing parenthetical. -/
def charCue (line : String) : Bool :=
  let cs := line.toList
  let p := cs.takeWhile cueClass
  let r := cs.drop p.length
  (match cs.head? with | some c => c.isUpper | none => false) &&
  2 ≤ p.length &&
  (r.isEmpty ||
    (match r with
     | '(' :: tl =>
       let x := tl.takeWhile (· ≠ ')')
       let rest := tl.drop x.length
       !x.isEmpty && (match rest with | ')' :: tail => tail.isEmpty | _ => false)
     | _ => false))

/-- The advanced parenthetical_pattern: optional whitespace, an open
parenthesis, at least one character before the first close parenthesis,
the close parenthesis, then only whitespace. -/
def parenMatch (line : String) : Bool :=
  match line.toList.dropWhile pyIsSpace with
  | '(' :: tl =>
    let x := tl.takeWhile (· ≠ ')')
    let rest := tl.drop x.length
    !x.isEmpty && (match rest with | ')' :: tail => tail.all pyIsSpace | _ => false)
  | _ => false

/-- Character class of the basic character-name group: uppercase letters
and whitespace only, no periods. -/
def bCueClass (c : Char) : Bool := c.isUpper || pyIsSpace c

/-- The basic parser character_pattern, same shape as the advanced one
but with the period-free class. -/
def bCharCue (line : String) : Bool :=
  let cs := line.toList
  let p := cs.takeWhile bCueClass
  let r := cs.drop p.length
  (match cs.head? with | some c => c.isUpper | none => false) &&
  2 ≤ p.length &&
  (r.isEmpty ||
    (match r with
     | '(' :: tl =>
       let x := tl.takeWhile (· ≠ ')')
       let rest := tl.drop x.length
       !x.isEmpty && (match rest with | ')' :: tail => tail.isEmpty | _ => false)
     | _ => false))

/-- The basic parenthetical_pattern, with no whitespace tolerance. -/
def bParenMatch (line : String) : Bool :=
  match line.toList with
  | '(' :: tl =>
    let x := tl.takeWhile (· ≠ ')')
    let rest := tl.drop x.length
    !x.isEmpty && (match rest with | ')' :: tail => tail.isEmpty | _ => false)
  | _ => false

/-- The three transition pattern groups of the advanced parser, in source
order. -/
def transAlts1 : List String := ["FADE IN", "FADE OUT", "FADE TO"]

def transAlts2 : List String := ["CUT TO", "DISSOLVE TO", "MATCH CUT TO", "SMASH CUT TO"]

def transAlts3 : List String := ["INTERCUT WITH", "BACK TO", "ANGLE ON", "CLOSE ON"]

/-- Full-line, case-insensitive match of one transition alternative with
an optional trailing colon; the result is the raw line with trailing
colons stripped, as the source does with group(1).rstrip. -/
def transLineMatch (alts : List String) (line : String) : Option String :=
  alts.findSome? (fun alt =>
    if pyUpper line = alt || pyUpper line = alt ++ ":" then
      some (stripTrailingColons line)
    else none)

/-- Search a context window for a transition of one pattern group: the
window is sliced from the full text, so its line structure is the slice
line structure. -/
def searchTrans (alts : List String) (window : String) : Option String :=
  (pySplitLines window).findSome? (transLineMatch alts)

/-- The source loops over the three pattern groups and overwrites the
transition on every hit, so the last matching group wins. -/
def lastTrans (window : String) : Option String :=
  (searchTrans transAlts3 window) <|> (searchTrans transAlts2 window) <|>
    (searchTrans transAlts1 window)

/-- Shot type keyword families of the advanced parser, in source
(insertion) order. -/
def shotFamilies : List (String × List String) :=
  [("WIDE", ["WIDE", "ESTABLISHING", "EXTREME WIDE", "FULL"]),
   ("MEDIUM", ["MEDIUM", "MED", "TWO-SHOT", "THREE-SHOT"]),
   ("CLOSE-UP", ["CLOSE-UP", "CLOSE UP", "CU", "TIGHT"]),
   ("EXTREME CLOSE-UP", ["EXTREME CLOSE-UP", "ECU", "MACRO"]),
   ("OVER-THE-SHOULDER", ["OVER THE SHOULDER", "OTS", "OVER SHOULDER"]),
   ("POV", ["POV", "POINT OF VIEW", "P.O.V."]),
   ("INSERT", ["INSERT", "CUTAWAY"])]

/-- Camera movement keyword families of the advanced parser. -/
def movementFamilies : List (String × List String) :=
  [("PAN", ["PAN", "PANNING", "PANS"]),
   ("TILT", ["TILT", "TILTING", "TILTS"]),
   ("DOLLY", ["DOLLY", "DOLLYING", "DOLLIES", "TRACK", "TRACKING"]),
   ("CRANE", ["CRANE", "CRANING", "BOOM"]),
   ("HANDHELD", ["HANDHELD", "HAND-HELD", "SHAKY"]),
   ("STEADICAM", ["STEADICAM", "STEADY CAM", "SMOOTH"]),
   ("ZOOM", ["ZOOM", "ZOOMING", "ZOOMS"]),
   ("STATIC", ["STATIC", "LOCKED OFF", "FIXED"])]

/-- The advanced parser _detect_shot_type: first family with a match. -/
def detectShotType (text : String) : Option String :=
  shotFamilies.findSome? (fun f => if famSearch f.2 text then some f.1 else none)

/-- The advanced parser _detect_camera_movement: all matching families,
lowercased and space-joined; none when no family matches. -/
def detectCameraMovement (text : String) : Option String :=
  let ms := movementFamilies.filterMap
    (fun f => if famSearch f.2 text then some f.1.toLower else none)
  if ms.isEmpty then none else some (joinSpace ms)

/-- Flashback keyword family; the YEARS?-AGO branch of the pattern
matches with or without the S. -/
def flashbackKws : List String :=
  ["FLASHBACK", "FLASH BACK", "YEAR AGO", "YEARS AGO", "EARLIER"]

/-- Dream keyword family. -/
def dreamKws : List String := ["DREAM", "NIGHTMARE", "FANTASY", "IMAGINATION"]

/-- Montage keyword family. -/
def montageKws : List String := ["MONTAGE", "SERIES OF SHOTS", "SEQUENCE"]

/-- The advanced parser _detect_scene_type: the source lowercases the
text first, which the case-insensitive search absorbs. -/
def detectSceneType (text : String) (dflt : String) : String :=
  let lower := pyLower text
  if famSearch flashbackKws lower then "FLASHBACK"
  else if famSearch dreamKws lower then "DREAM"
  else if famSearch montageKws lower then "MONTAGE"
  else dflt

end FilmCrew

namespace FilmCrew

/-- Python KeyError on the per-scene dictionaries. -/
inductive PyErr where
  | keyError (key : String)
deriving Repr, DecidableEq

/-- The VoiceOver dataclass of the advanced parser. -/
structure VoiceOver where
  character : String
  text : String
  scene_context : String
  timing : String
  emotional_tone : String := ""
deriving Repr, DecidableEq

/-- The Transition dataclass of the advanced parser. -/
structure Transition where
  type : String
  from_scene : String
  to_scene : String
deriving Repr, DecidableEq

/-- The VideoShot dataclass of the advanced parser. -/
structure VideoShot where
  shot_id : String
  scene_number : String
  shot_number : String
  shot_type : String
  description : String
  duration : String
  camera_movement : String
  characters_in_frame : List String
  dialogue : List String
  voice_overs : List VoiceOver
  is_flashback : Bool := false
  is_montage : Bool := false
  visual_effects : String := ""
deriving Repr, DecidableEq

/-- One entry of dialogue_blocks: a character plus its lines. -/
structure DialogueBlock where
  character : String
  lines : List String
deriving Repr, DecidableEq

/-- The EnhancedScene dataclass of the advanced parser. -/
structure EnhancedScene where
  scene_number : String
  heading : String
  location : String
  time_of_day : String
  scene_type : String
  description : String
  action_blocks : List String
  dialogue_blocks : List DialogueBlock
  voice_overs : List VoiceOver
  shots : List VideoShot
  transitions_in : Option Transition := none
  transitions_out : Option Transition := none
deriving Repr, DecidableEq

/-- The per-scene dictionary built by _extract_scenes.  The synthetic
no-headings dictionary carries only start, end, heading and text, so
location, time and type are optional here and none on that path. -/
structure SceneData where
  start : Nat
  stop : Nat
  heading : String
  location : Option String
  time : Option String
  stype : Option String
  text : String
deriving Repr, DecidableEq

/-- Lines of a text paired with the character offset of each line start. -/
def lineOffsets : List String → Nat → List (Nat × String)
  | [], _ => []
  | l :: rest, off => (off, l) :: lineOffsets rest (off + pyLen l + 1)

/-- All scene-heading matches of the advanced pattern over the full text:
the pattern is anchored to whole lines, so finditer yields one match per
matching line, at that line start offset. -/
def advMatches (content : String) : List (Nat × HeadingCaps) :=
  (lineOffsets (pySplitLines content) 0).filterMap
    (fun p => (advHeading p.2).map (fun h => (p.1, h)))

/-- Heading string rebuilt by _extract_scenes from the captured groups. -/
def buildHeading (h : HeadingCaps) : String :=
  h.lead ++ " " ++ h.loc ++ " - " ++ h.time ++
    (match h.extra with | some e => " - " ++ e | none => "")

/-- The matched branch of _extract_scenes: one SceneData per match, the
span running to the next match start or the text end. -/
def scenesFromMatches (content : String) : List (Nat × HeadingCaps) → List SceneData
  | [] => []
  | (off, h) :: rest =>
    let stop := match rest with
      | [] => pyLen content
      | (off2, _) :: _ => off2
    { start := off, stop := stop, heading := buildHeading h,
      location := some h.loc, time := some h.time,
      stype := some (if (match h.extra with
                         | some e => famSearch flashbackKws e
                         | none => false) then "FLASHBACK" else "PRESENT"),
      text := pySlice content off stop } :: scenesFromMatches content rest

/-- The advanced parser _extract_scenes. -/
def extractScenes (content : String) : List SceneData :=
  match advMatches content with
  | [] => [{ start := 0, stop := pyLen content, heading := "INT. LOCATION - DAY",
             location := none, time := none, stype := none, text := content }]
  | ms => scenesFromMatches content ms

/-- Continuity markers tested on the opening of the scene text. -/
def contMarker (s : String) : Bool :=
  pyIn "CONTINUED" s || pyIn contD s || pyIn "CONTINUOUS" s

/-- Python format specifier 03d. -/
def pad3 (n : Nat) : String :=
  if n < 10 then "00" ++ toString n
  else if n < 100 then "0" ++ toString n
  else toString n

/-- The advanced parser _estimate_duration; the shot type argument is the
raw detection result and may be absent. -/
def estimateDuration (text : String) (shotType : Option String) : String :=
  let wc := (pyWords text).length
  if shotType = some "WIDE" || shotType = some "ESTABLISHING" then "5-8 seconds"
  else if 50 < wc then "5-7 seconds"
  else if 20 < wc then "3-5 seconds"
  else "2-3 seconds"

/-- Stop words excluded by _extract_characters_from_action. -/
def stopWords : List String := ["THE", "AND", "BUT", "FOR", "WITH", "INTO", "OVER"]

/-- The advanced parser _extract_characters_from_action.  The source ends
with list(set(characters)); the enumeration order of a CPython set of
strings depends on the interpreter hash seed, so the conversion is a
parameter ord, to be a function that deduplicates while keeping the
membership (IsSetList below). -/
def extractCharsFromAction (ord : List String → List String) (action : String) :
    List String :=
  ord ((pyWords action).filter (fun w =>
    pyIsUpper w && 2 < w.length && (!w.isEmpty && w.toList.all Char.isAlpha) &&
    !stopWords.contains w))

/-- The advanced parser _needs_new_shot.  The new-character argument is
accepted but never inspected by the source. -/
def needsNewShot (cur : Option VideoShot) (newChar : String) : Bool :=
  match cur with
  | none => true
  | some s => 2 ≤ s.characters_in_frame.length || 3 ≤ s.dialogue.length

/-- The advanced parser _determine_dialogue_shot_type. -/
def determineDialogueShotType (shotCount : Nat) (ch : String) : String :=
  if shotCount = 0 then "MEDIUM"
  else if shotCount % 3 = 0 then "CLOSE-UP"
  else if shotCount % 2 = 0 then "OVER-THE-SHOULDER"
  else "MEDIUM"

/-- Python character.split(chr(40))[0].strip(): the name before any
parenthetical suffix. -/
def splitParenHead (ch : String) : String :=
  pyStrip (String.mk (ch.toList.takeWhile (· ≠ '(')))

/-- The advanced parser _create_establishing_shot, with the description
argument already resolved by the caller. -/
def establishingShot (n shotNum : Nat) (desc : String) (sd : SceneData) : VideoShot :=
  { shot_id := toString n ++ "-" ++ pad3 shotNum,
    scene_number := toString n,
    shot_number := pad3 shotNum,
    shot_type := "WIDE ESTABLISHING",
    description := desc,
    duration := "5-8 seconds",
    camera_movement := "slow push in or crane",
    characters_in_frame := [],
    dialogue := [],
    voice_overs := [],
    is_flashback := pyIn "FLASHBACK" (sd.stype.getD ""),
    visual_effects := "" }

/-- Step 1 of _generate_video_shots: the establishing shot, skipped when
the opening 50 characters of the scene text hold a continuity marker.
With no action block the description reads the location key, which the
synthetic scene dictionary does not have. -/
def estPart (n : Nat) (sd : SceneData) (ab : List String) :
    Except PyErr (List VideoShot × Nat) :=
  if contMarker (pyTake sd.text 50) then .ok ([], 1)
  else
    match ab with
    | a :: _ => .ok ([establishingShot n 1 (pyTake a 200) sd], 2)
    | [] =>
      match sd.location with
      | some loc => .ok ([establishingShot n 1 ("Establishing " ++ loc) sd], 2)
      | none => .error (.keyError "location")

/-- The shot literal emitted for one qualifying action block. -/
def actionShot (ord : List String → List String) (n : Nat) (sd : SceneData)
    (vos : List VoiceOver) (a : String) (k : Nat) : VideoShot :=
  { shot_id := toString n ++ "-" ++ pad3 k,
    scene_number := toString n,
    shot_number := pad3 k,
    shot_type := (detectShotType a).getD "MEDIUM",
    description := pyTake a 200,
    duration := estimateDuration a (detectShotType a),
    camera_movement := (detectCameraMovement a).getD "static",
    characters_in_frame := extractCharsFromAction ord a,
    dialogue := [],
    voice_overs := vos.filter (fun v => v.timing == "during_scene"),
    is_flashback := pyIn "FLASHBACK" (sd.stype.getD ""),
    is_montage := pyIn "MONTAGE" (sd.stype.getD "") }

/-- Step 2 of _generate_video_shots: one shot per action block that has a
shot-type keyword, a movement keyword, or more than 100 characters. -/
def actionShotsAux (ord : List String → List String) (n : Nat) (sd : SceneData)
    (vos : List VoiceOver) : Nat → List String → List VideoShot × Nat
  | k, [] => ([], k)
  | k, a :: rest =>
    if (detectShotType a).isSome || (detectCameraMovement a).isSome || 100 < pyLen a then
      let res := actionShotsAux ord n sd vos (k + 1) rest
      (actionShot ord n sd vos a k :: res.1, res.2)
    else actionShotsAux ord n sd vos k rest

/-- The fresh dialogue shot opened for a block, given the number of shots
already flushed (which drives the shot-type cycle) and the shot counter. -/
def dlgShot (n : Nat) (sd : SceneData) (shotCount k : Nat) (d : DialogueBlock) : VideoShot :=
  { shot_id := toString n ++ "-" ++ pad3 k,
    scene_number := toString n,
    shot_number := pad3 k,
    shot_type := determineDialogueShotType shotCount d.character,
    description := "Dialogue: " ++ d.character,
    duration := "3-5 seconds",
    camera_movement := "subtle drift",
    characters_in_frame := [splitParenHead d.character],
    dialogue := [joinSpace d.lines],
    voice_overs := [],
    is_flashback := pyIn "FLASHBACK" (sd.stype.getD "") }

/-- Continuation of the open dialogue shot with one more block: the lines
are appended as one entry and the speaker joins the frame if new. -/
def dlgAppend (c : VideoShot) (d : DialogueBlock) : VideoShot :=
  { c with
    dialogue := c.dialogue ++ [joinSpace d.lines],
    characters_in_frame :=
      if c.characters_in_frame.contains (splitParenHead d.character) then
        c.characters_in_frame
      else c.characters_in_frame ++ [splitParenHead d.character] }

/-- Step 3 of _generate_video_shots: the dialogue-coverage loop, carrying
the full shot list built so far (its length drives the shot-type cycle)
and the in-progress dialogue shot. -/
def dialogueShotsAux (n : Nat) (sd : SceneData) :
    List VideoShot → Option VideoShot → Nat → List DialogueBlock →
    List VideoShot × Nat
  | shots, cur, k, [] =>
    (match cur with | some c => shots ++ [c] | none => shots, k)
  | shots, cur, k, d :: rest =>
    if needsNewShot cur d.character then
      let shots2 := match cur with | some c => shots ++ [c] | none => shots
      dialogueShotsAux n sd shots2 (some (dlgShot n sd shots2.length k d)) (k + 1) rest
    else
      match cur with
      | some c => dialogueShotsAux n sd shots (some (dlgAppend c d)) k rest
      | none => dialogueShotsAux n sd shots none k rest

/-- The standalone montage shot for one transitional voice-over. -/
def voShot (n k : Nat) (vo : VoiceOver) : VideoShot :=
  { shot_id := toString n ++ "-" ++ pad3 k,
    scene_number := toString n,
    shot_number := pad3 k,
    shot_type := "VARIOUS",
    description := "Voice-over montage: " ++ vo.character,
    duration := "5-10 seconds",
    camera_movement := "various",
    characters_in_frame := [],
    dialogue := [],
    voice_overs := [vo],
    is_flashback := false,
    is_montage := true }

/-- Step 4 of _generate_video_shots: a standalone montage shot for every
voice-over with transitional timing. -/
def voShotsAux (n : Nat) : Nat → List VoiceOver → List VideoShot × Nat
  | k, [] => ([], k)
  | k, vo :: rest =>
    if vo.timing == "transitional" then
      let res := voShotsAux n (k + 1) rest
      (voShot n k vo :: res.1, res.2)
    else voShotsAux n k rest

/-- The advanced parser _create_closing_shot; it reads the location key
of the scene dictionary. -/
def closingShot (n : Nat) (sd : SceneData) (k : Nat) : Except PyErr VideoShot :=
  match sd.location with
  | none => .error (.keyError "location")
  | some loc => .ok
    { shot_id := toString n ++ "-" ++ pad3 k,
      scene_number := toString n,
      shot_number := pad3 k,
      shot_type := "WIDE",
      description := "Scene closing - " ++ loc,
      duration := "3-5 seconds",
      camera_movement := "pull back or static",
      characters_in_frame := [],
      dialogue := [],
      voice_overs := [],
      is_flashback := false,
      visual_effects := "" }

/-- Step 5 guard: more than three shots so far and no cut marker in the
final 50 characters of the scene text. -/
def closingNeeded (sd : SceneData) (shots : List VideoShot) : Bool :=
  3 < shots.length &&
    !(pyIn "CUT TO" (pyTakeRight sd.text 50) || pyIn "FADE TO" (pyTakeRight sd.text 50))

/-- The advanced parser _generate_video_shots. -/
def generateVideoShots (ord : List String → List String) (n : Nat) (sd : SceneData)
    (ab : List String) (db : List DialogueBlock) (vos : List VoiceOver) :
    Except PyErr (List VideoShot) :=
  match estPart n sd ab with
  | .error e => .error e
  | .ok (est, k1) =>
    let acts := actionShotsAux ord n sd vos k1 ab
    let withDlg := dialogueShotsAux n sd (est ++ acts.1) none acts.2 db
    let vshots := voShotsAux n withDlg.2 vos
    let shots := withDlg.1 ++ vshots.1
    if closingNeeded sd shots then
      match closingShot n sd vshots.2 with
      | .error e => .error e
      | .ok c => .ok (shots ++ [c])
    else .ok shots

end FilmCrew

namespace FilmCrew

/-- Accumulator of the _process_scene line loop. -/
structure PState where
  action_blocks : List String
  dialogue_blocks : List DialogueBlock
  scene_voice_overs : List VoiceOver
  current_block : List String
  current_character : Option String
deriving Repr, DecidableEq

/-- Initial accumulator. -/
def initState : PState := ⟨[], [], [], [], none⟩

/-- Append one line to the last dialogue block. -/
def appendLastLine (dbs : List DialogueBlock) (line : String) : List DialogueBlock :=
  match dbs.getLast? with
  | none => dbs
  | some b => dbs.dropLast ++ [⟨b.character, b.lines ++ [line]⟩]

/-- One iteration of the _process_scene loop over the scene lines: blank
lines flush the action accumulator and close the open cue; a V.O. cue
line records the captured name with the suffix re-attached; an uppercase
character line opens a dialogue block; a following line is routed to the
voice-overs when the open cue carries the V.O. suffix, else to the last
dialogue block; everything else accumulates as action. -/
def processLine (heading : String) (st : PState) (line : String) : PState :=
  let ls := pyStrip line
  if ls = "" then
    { st with
      action_blocks := if st.current_block.isEmpty then st.action_blocks
                       else st.action_blocks ++ [joinSpace st.current_block],
      current_block := [],
      current_character := none }
  else
    match voCue ls with
    | some name => { st with current_character := some (name ++ " (V.O.)") }
    | none =>
      if charCue ls && pyIsUpper ls then
        { st with current_character := some ls,
                  dialogue_blocks := st.dialogue_blocks ++ [⟨ls, []⟩] }
      else
        match st.current_character with
        | some ch =>
          if !parenMatch ls then
            if pyIn "(V.O.)" ch then
              { st with scene_voice_overs := st.scene_voice_overs ++
                  [⟨pyReplace ch " (V.O.)" "", ls, heading, "during_scene", ""⟩] }
            else if !st.dialogue_blocks.isEmpty then
              { st with dialogue_blocks := appendLastLine st.dialogue_blocks ls }
            else st
          else
            { st with current_block := st.current_block ++ [ls] }
        | none => { st with current_block := st.current_block ++ [ls] }

/-- The advanced parser _process_scene.  The transitions and voice_overs
parameters of the Python method are never read in its body and are left
out here.  The scene dictionary lookups that can fail are the location
and time keys, read while the EnhancedScene is constructed, and the
location read inside shot generation.  The tail of _process_scene after
shot generation (transition windows, dictionary reads, construction) is
split out as finishScene. -/
def finishScene (sd : SceneData) (n : Nat) (full : String) (st : PState)
    (ab : List String) (shotsE : Except PyErr (List VideoShot)) :
    Except PyErr EnhancedScene :=
  match shotsE with
  | .error e => .error e
  | .ok shots =>
    let before := pySlice full (sd.start - 100) sd.start
    let after := pyTake (pyDrop full sd.stop) 100
    let tin := (lastTrans before).map (fun t =>
      Transition.mk t (if 1 < n then toString (n - 1) else "OPENING") (toString n))
    let tout := (lastTrans after).map (fun t =>
      Transition.mk t (toString n) (toString (n + 1)))
    match sd.location with
    | none => .error (.keyError "location")
    | some loc =>
      match sd.time with
      | none => .error (.keyError "time")
      | some tm =>
        .ok { scene_number := toString n,
              heading := sd.heading,
              location := loc,
              time_of_day := tm,
              scene_type := detectSceneType sd.text (sd.stype.getD "PRESENT"),
              description := if ab.isEmpty then "" else joinSpace (ab.take 1),
              action_blocks := ab,
              dialogue_blocks := st.dialogue_blocks,
              voice_overs := st.scene_voice_overs,
              shots := shots,
              transitions_in := tin,
              transitions_out := tout }

/-- The advanced parser _process_scene body: run the line loop over the
scene text minus its first line, flush the open action block, then
generate the shots and finish the scene. -/
def processScene (ord : List String → List String) (sd : SceneData) (n : Nat)
    (full : String) : Except PyErr EnhancedScene :=
  let lines := pySplitLines sd.text
  let st := (lines.drop 1).foldl (processLine sd.heading) initState
  let ab := if st.current_block.isEmpty then st.action_blocks
            else st.action_blocks ++ [joinSpace st.current_block]
  finishScene sd n full st ab
    (generateVideoShots ord n sd ab st.dialogue_blocks st.scene_voice_overs)

/-- The scene loop of the advanced parser parse method with the per-scene
step abstracted, numbering from the given index. -/
def parseScenesWith (f : SceneData → Nat → Except PyErr EnhancedScene) :
    Nat → List SceneData → Except PyErr (List EnhancedScene)
  | _, [] => .ok []
  | i, sd :: rest =>
    match f sd i with
    | .error e => .error e
    | .ok sc =>
      match parseScenesWith f (i + 1) rest with
      | .error e => .error e
      | .ok scs => .ok (sc :: scs)

/-- The scene loop of the advanced parser parse method, numbering from
the given index. -/
def parseScenes (ord : List String → List String) (full : String) :
    Nat → List SceneData → Except PyErr (List EnhancedScene) :=
  parseScenesWith (fun sd i => processScene ord sd i full)

/-- The advanced parser parse method on an already-read text: extract the
scene spans, then process each with its 1-based ordinal. -/
def advParse (ord : List String → List String) (content : String) :
    Except PyErr (List EnhancedScene) :=
  parseScenes ord content 1 (extractScenes content)

/-- Property of a valid embedding of list(set(...)) on strings: the
result has no duplicates and exactly the members of the input.  Every
CPython hash-seed-dependent enumeration satisfies this. -/
def IsSetList (f : List String → List String) : Prop :=
  ∀ l : List String, (f l).Nodup ∧ ∀ a : String, a ∈ f l ↔ a ∈ l

/-- One valid set enumeration: deduplicate keeping document order. -/
def pySetList (l : List String) : List String := l.dedup

/-- Another valid set enumeration: the same, reversed; two interpreter
runs with different hash seeds can enumerate the same set in orders that
differ exactly like these two do. -/
def revSetList (l : List String) : List String := l.dedup.reverse

end FilmCrew

namespace FilmCrew

/-- The Shot dataclass of the basic parser (integer numbering). -/
structure BShot where
  shot_id : String
  scene_number : Nat
  shot_number : Nat
  scene_heading : String
  action : String
  dialogue : List String
  shot_type : String := "MEDIUM"
  duration : String := "3-5 seconds"
deriving Repr, DecidableEq

/-- The Scene dataclass of the basic parser. -/
structure BScene where
  scene_number : Nat
  heading : String
  location : String
  time_of_day : String
  action_blocks : List String
  dialogue_blocks : List DialogueBlock
  shots : List BShot
deriving Repr, DecidableEq

/-- The basic parser _generate_shots: establishing shot always, a medium
coverage shot when more content exists, a close-up when more than two
dialogue blocks exist. -/
def bGenerateShots (n : Nat) (heading : String) (ab : List String)
    (db : List DialogueBlock) : List BShot :=
  let shots1 : List BShot :=
    [{ shot_id := toString n ++ "-1", scene_number := n, shot_number := 1,
       scene_heading := heading,
       action := if ab.isEmpty then "" else joinSpace (ab.take 1),
       dialogue := [], shot_type := "WIDE ESTABLISHING", duration := "5-8 seconds" }]
  let shots2 :=
    if 1 < ab.length || !db.isEmpty then
      shots1 ++
        [{ shot_id := toString n ++ "-2", scene_number := n, shot_number := 2,
           scene_heading := heading,
           action := if 1 < ab.length then joinSpace ((ab.drop 1).take 1) else "",
           dialogue := (db.take 2).map (fun d => d.character),
           shot_type := "MEDIUM", duration := "3-5 seconds" }]
    else shots1
  if 2 < db.length then
    shots2 ++
      [{ shot_id := toString n ++ "-3", scene_number := n, shot_number := 3,
         scene_heading := heading, action := "",
         dialogue := (db.drop 2).map (fun d => d.character),
         shot_type := "CLOSE-UP", duration := "2-4 seconds" }]
  else shots2

/-- One iteration of the basic _parse_scene loop.  Unlike the advanced
loop it flushes the action accumulator when a character cue opens, has no
V.O. handling, and routes every later non-parenthetical line to the last
dialogue block as soon as any dialogue block exists. -/
def bProcessLine (st : PState) (line : String) : PState :=
  let ls := pyStrip line
  if ls = "" then
    { st with
      action_blocks := if st.current_block.isEmpty then st.action_blocks
                       else st.action_blocks ++ [joinSpace st.current_block],
      current_block := [] }
  else if bCharCue ls then
    { st with
      action_blocks := if st.current_block.isEmpty then st.action_blocks
                       else st.action_blocks ++ [joinSpace st.current_block],
      current_block := [],
      dialogue_blocks := st.dialogue_blocks ++ [⟨ls, []⟩] }
  else if !st.dialogue_blocks.isEmpty && !bParenMatch ls then
    { st with dialogue_blocks := appendLastLine st.dialogue_blocks ls }
  else
    { st with current_block := st.current_block ++ [ls] }

/-- The basic parser _parse_scene. -/
def bParseScene (n : Nat) (scene_text : String) : BScene :=
  let lines := pySplitLines (pyStrip scene_text)
  let caps := match lines.head? with
    | some l0 => basicHeading l0
    | none => none
  let ie := match caps with | some c => c.1 | none => "INT."
  let loc := match caps with | some c => c.2.1 | none => "UNKNOWN"
  let tod := match caps with | some c => c.2.2 | none => "DAY"
  let heading := ie ++ " " ++ loc ++ " - " ++ tod
  let st := (lines.drop 1).foldl bProcessLine initState
  let ab := if st.current_block.isEmpty then st.action_blocks
            else st.action_blocks ++ [joinSpace st.current_block]
  { scene_number := n, heading := heading, location := loc, time_of_day := tod,
    action_blocks := ab, dialogue_blocks := st.dialogue_blocks,
    shots := bGenerateShots n heading ab st.dialogue_blocks }

/-- The basic parser _create_default_scene for texts with no heading. -/
def bDefaultScene (content : String) : BScene :=
  let upper := pyUpper content
  let loc := if pyIn "INT." upper then "INTERIOR"
             else if pyIn "EXT." upper then "EXTERIOR"
             else "LOCATION"
  let tod := if pyIn "NIGHT" upper then "NIGHT"
             else if pyIn "MORNING" upper then "MORNING"
             else "DAY"
  let heading := "INT. " ++ loc ++ " - " ++ tod
  { scene_number := 1, heading := heading, location := loc, time_of_day := tod,
    action_blocks := [content], dialogue_blocks := [],
    shots := bGenerateShots 1 heading [content] [] }

/-- Offsets of the basic pattern heading matches. -/
def basicMatchOffsets (content : String) : List Nat :=
  (lineOffsets (pySplitLines content) 0).filterMap
    (fun p => if (basicHeading p.2).isSome then some p.1 else none)

/-- The matched branch of the basic parse loop. -/
def bScenesFromMatches (content : String) : Nat → List Nat → List BScene
  | _, [] => []
  | i, off :: rest =>
    let stop := match rest with
      | [] => pyLen content
      | off2 :: _ => off2
    bParseScene i (pySlice content off stop) :: bScenesFromMatches content (i + 1) rest

/-- The basic parser parse method on an already-read text. -/
def basicParse (content : String) : List BScene :=
  match basicMatchOffsets content with
  | [] => [bDefaultScene content]
  | ms => bScenesFromMatches content 1 ms

/-- Scene-number rendering of the enhanced archive parser: numbers above
26 get a division-based digit part and a modulo-26 letter. -/
def enhancedSceneNumStr (n : Nat) : String :=
  if 26 < n then toString (n / 26) ++ String.singleton (Char.ofNat (65 + n % 26))
  else toString n

/-- Modelled from the spec wording of the dialogue-grouping claim, for
comparison with the source needsNewShot: a new shot is needed exactly
when there is no open shot, or adding the next speaker would introduce a
third distinct character into the shot (the two-character cap), or the
open shot already holds three or more dialogue entries. -/
def claimNeedsNewShot (cur : Option VideoShot) (newChar : String) : Bool :=
  match cur with
  | none => true
  | some s =>
    (2 ≤ s.characters_in_frame.length &&
      !s.characters_in_frame.contains (splitParenHead newChar)) ||
    3 ≤ s.dialogue.length

/-- Erase the set-order-dependent field of a shot. -/
def scrubShot (s : VideoShot) : VideoShot := { s with characters_in_frame := [] }

/-- Erase the set-order-dependent field everywhere in a scene. -/
def scrubScene (sc : EnhancedScene) : EnhancedScene :=
  { sc with shots := sc.shots.map scrubShot }

end FilmCrew

namespace FilmCrew

theorem isSetList_pySetList : IsSetList pySetList := by
  intro l
  exact ⟨List.nodup_dedup l, fun a => List.mem_dedup⟩

theorem isSetList_revSetList : IsSetList revSetList := by
  intro l
  constructor
  · simpa [revSetList, List.nodup_reverse] using List.nodup_dedup l
  · intro a
    simp [revSetList, List.mem_reverse, List.mem_dedup]

theorem dialogueShotsAux_prefix (n : Nat) (sd : SceneData) :
    ∀ (db : List DialogueBlock) (shots : List VideoShot) (cur : Option VideoShot) (k : Nat),
      ∃ t, (dialogueShotsAux n sd shots cur k db).1 = shots ++ t := by
  intro db
  induction db with
  | nil =>
    intro shots cur k
    cases cur with
    | none => exact ⟨[], by simp [dialogueShotsAux]⟩
    | some c => exact ⟨[c], by simp [dialogueShotsAux]⟩
  | cons d rest ih =>
    intro shots cur k
    by_cases h : needsNewShot cur d.character = true
    · cases cur with
      | none =>
        obtain ⟨t, ht⟩ := ih shots (some (dlgShot n sd shots.length k d)) (k + 1)
        exact ⟨t, by simpa [dialogueShotsAux, h] using ht⟩
      | some c =>
        obtain ⟨t, ht⟩ :=
          ih (shots ++ [c]) (some (dlgShot n sd (shots ++ [c]).length k d)) (k + 1)
        refine ⟨[c] ++ t, ?_⟩
        simpa [dialogueShotsAux, h] using ht
    · cases cur with
      | none =>
        obtain ⟨t, ht⟩ := ih shots none k
        exact ⟨t, by simpa [dialogueShotsAux, h] using ht⟩
      | some c =>
        obtain ⟨t, ht⟩ := ih shots (some (dlgAppend c d)) k
        exact ⟨t, by simpa [dialogueShotsAux, h] using ht⟩

theorem estPart_no_error (n : Nat) (sd : SceneData) (ab : List String) (e : PyErr)
    (h : sd.location.isSome = true) : estPart n sd ab ≠ Except.error e := by
  unfold estPart
  split
  · simp
  · cases ab with
    | cons a t => simp
    | nil =>
      cases hl : sd.location with
      | none => rw [hl] at h; simp at h
      | some loc => simp [hl]

theorem closingShot_no_error (n : Nat) (sd : SceneData) (k : Nat) (e : PyErr)
    (h : sd.location.isSome = true) : closingShot n sd k ≠ Except.error e := by
  unfold closingShot
  cases hl : sd.location with
  | none => rw [hl] at h; simp at h
  | some loc => simp

theorem gen_no_error (ord : List String → List String) (n : Nat) (sd : SceneData)
    (ab : List String) (db : List DialogueBlock) (vos : List VoiceOver) (e : PyErr)
    (h : sd.location.isSome = true) :
    generateVideoShots ord n sd ab db vos ≠ Except.error e := by
  unfold generateVideoShots
  cases hE : estPart n sd ab with
  | error e2 => exact absurd hE (estPart_no_error n sd ab e2 h)
  | ok p =>
    obtain ⟨est, k1⟩ := p
    dsimp only
    split
    · split
      · rename_i e3 heq
        exact absurd heq (closingShot_no_error n sd _ e3 h)
      · simp
    · simp

end FilmCrew

namespace FilmCrew

theorem finishScene_ok (sd : SceneData) (n : Nat) (full : String) (st : PState)
    (ab : List String) (shots : List VideoShot) (loc tm : String)
    (hl : sd.location = some loc) (ht : sd.time = some tm) :
    ∃ sc, finishScene sd n full st ab (Except.ok shots) = Except.ok sc ∧
      sc.scene_number = toString n ∧ sc.shots = shots := by
  unfold finishScene
  rw [hl, ht]
  exact ⟨_, rfl, rfl, rfl⟩

theorem finishGen_ok (ord : List String → List String) (sd : SceneData) (n : Nat)
    (full : String) (st : PState) (ab : List String) (db : List DialogueBlock)
    (vos : List VoiceOver) (loc tm : String) (hl : sd.location = some loc)
    (ht : sd.time = some tm) :
    ∃ sc, finishScene sd n full st ab (generateVideoShots ord n sd ab db vos) =
      Except.ok sc ∧ sc.scene_number = toString n := by
  cases hG : generateVideoShots ord n sd ab db vos with
  | error e => exact absurd hG (gen_no_error ord n sd ab db vos e (by simp [hl]))
  | ok shots =>
    obtain ⟨sc, hsc, hnum, _⟩ := finishScene_ok sd n full st ab shots loc tm hl ht
    exact ⟨sc, hsc, hnum⟩

theorem processScene_ok (ord : List String → List String) (sd : SceneData) (n : Nat)
    (full : String) (loc tm : String) (hl : sd.location = some loc)
    (ht : sd.time = some tm) :
    ∃ sc, processScene ord sd n full = Except.ok sc ∧ sc.scene_number = toString n := by
  simp only [processScene]
  exact finishGen_ok ord sd n full _ _ _ _ loc tm hl ht

theorem scenesFromMatches_keys (content : String) :
    ∀ ms : List (Nat × HeadingCaps), ∀ sd ∈ scenesFromMatches content ms,
      sd.location.isSome = true ∧ sd.time.isSome = true := by
  intro ms
  induction ms with
  | nil => simp [scenesFromMatches]
  | cons p rest ih =>
    obtain ⟨off, h⟩ := p
    intro sd hsd
    simp only [scenesFromMatches] at hsd
    rcases List.mem_cons.mp hsd with rfl | hmem
    · exact ⟨rfl, rfl⟩
    · exact ih sd hmem

theorem scenesFromMatches_length (content : String) :
    ∀ ms : List (Nat × HeadingCaps),
      (scenesFromMatches content ms).length = ms.length := by
  intro ms
  induction ms with
  | nil => rfl
  | cons p rest ih =>
    obtain ⟨off, h⟩ := p
    simp only [scenesFromMatches, List.length_cons]
    simpa using ih

theorem parseScenes_ok (ord : List String → List String) (full : String) :
    ∀ (sds : List SceneData) (i : Nat),
      (∀ sd ∈ sds, sd.location.isSome = true ∧ sd.time.isSome = true) →
      ∃ out, parseScenes ord full i sds = Except.ok out ∧
        out.map (fun sc => sc.scene_number) =
          (List.range sds.length).map (fun j => toString (i + j)) := by
  intro sds
  induction sds with
  | nil => intro i _; exact ⟨[], rfl, by simp⟩
  | cons sd rest ih =>
    intro i h
    obtain ⟨hl, ht⟩ := h sd (by simp)
    obtain ⟨loc, hloc⟩ := Option.isSome_iff_exists.mp hl
    obtain ⟨tm, htm⟩ := Option.isSome_iff_exists.mp ht
    obtain ⟨sc, hsc, hnum⟩ := processScene_ok ord sd i full loc tm hloc htm
    obtain ⟨out, hout, hmap⟩ := ih (i + 1) (fun x hx => h x (List.mem_cons_of_mem _ hx))
    refine ⟨sc :: out, ?_, ?_⟩
    · rw [parseScenes] at hout ⊢
      rw [parseScenesWith.eq_2, hsc]
      dsimp only
      rw [hout]
    · rw [List.map_cons, hnum, hmap]
      simp only [List.length_cons, List.range_succ_eq_map, List.map_cons, List.map_map]
      refine congrArg₂ _ (by simp) ?_
      refine List.map_congr_left ?_
      intro j _
      simp only [Function.comp]
      exact congrArg _ (by omega)

end FilmCrew

namespace FilmCrew

theorem extractScenes_of_matches (content : String) (h : advMatches content ≠ []) :
    extractScenes content = scenesFromMatches content (advMatches content) := by
  unfold extractScenes
  cases hm : advMatches content with
  | nil => exact absurd hm h
  | cons a l => rfl

theorem bScenes_numbers (content : String) :
    ∀ (ms : List Nat) (i : Nat),
      (bScenesFromMatches content i ms).map (fun sc => sc.scene_number) =
        List.range' i ms.length := by
  intro ms
  induction ms with
  | nil => intro i; rfl
  | cons off rest ih =>
    intro i
    simp only [bScenesFromMatches, List.map_cons, List.length_cons, List.range'_succ]
    refine congrArg₂ _ ?_ (ih (i + 1))
    simp [bParseScene]

/-- Claim C1: with at least one scene-heading match the advanced parser
returns one scene per match, in document order, numbered by the string
forms of 1..N; the basic parser numbers its scenes 1..N as integers and
its zero-match fallback yields the single scene number 1.  The advanced
zero-match fallback, however, raises KeyError rather than returning the
synthetic scene, because the synthetic scene dictionary has no location
key: the final conjunct evaluates the parser on a heading-free text. -/
theorem C1_scene_numbering :
    (∀ (ord : List String → List String) (content : String),
        advMatches content ≠ [] →
        ∃ scenes, advParse ord content = Except.ok scenes ∧
          scenes.map (fun sc => sc.scene_number) =
            (List.range (advMatches content).length).map (fun i => toString (i + 1))) ∧
    (∀ content : String,
        (basicParse content).map (fun sc => sc.scene_number) =
          List.range' 1 (max (basicMatchOffsets content).length 1)) ∧
    advParse pySetList "hello" = Except.error (PyErr.keyError "location") := by
  refine ⟨?_, ?_, ?_⟩
  · intro ord content h
    obtain ⟨out, hout, hmap⟩ := parseScenes_ok ord content (extractScenes content) 1
      (by rw [extractScenes_of_matches content h]; exact scenesFromMatches_keys content _)
    refine ⟨out, by rw [advParse]; exact hout, ?_⟩
    rw [hmap, extractScenes_of_matches content h, scenesFromMatches_length]
    refine List.map_congr_left ?_
    intro j _
    exact congrArg _ (by omega)
  · intro content
    unfold basicParse
    cases hm : basicMatchOffsets content with
    | nil =>
      simp [bDefaultScene, List.range']
    | cons a l =>
      rw [bScenes_numbers, Nat.max_eq_left (by simp)]
  · rfl

/-- Claim C1 witness: a two-heading script instantiates the headed branch
of the numbering theorem. -/
theorem C1_scene_numbering_witness :
    advMatches "INT. A - DAY\nEXT. B - NIGHT" ≠ [] ∧
    ∃ scenes, advParse pySetList "INT. A - DAY\nEXT. B - NIGHT" = Except.ok scenes ∧
      scenes.map (fun sc => sc.scene_number) =
        (List.range (advMatches "INT. A - DAY\nEXT. B - NIGHT").length).map
          (fun i => toString (i + 1)) :=
  ⟨by decide, C1_scene_numbering.1 pySetList "INT. A - DAY\nEXT. B - NIGHT" (by decide)⟩

/-- Claim C7: scene segmentation and per-scene parsing never raise when
the text has at least one scene-heading match, but the documented
degradation to a synthetic single scene on heading-free text is broken:
the parser raises KeyError (location) there, as the evaluation on a
concrete heading-free text shows. -/
theorem C7_no_raise :
    (∀ (ord : List String → List String) (content : String),
        advMatches content ≠ [] →
        ∃ scenes, advParse ord content = Except.ok scenes) ∧
    advParse pySetList "Just a note with no heading." =
      Except.error (PyErr.keyError "location") := by
  constructor
  · intro ord content h
    obtain ⟨out, hout, _⟩ := parseScenes_ok ord content (extractScenes content) 1
      (by rw [extractScenes_of_matches content h]; exact scenesFromMatches_keys content _)
    exact ⟨out, by rw [advParse]; exact hout⟩
  · rfl

/-- Claim C7 witness: a one-heading script instantiates the headed branch
of the no-raise theorem. -/
theorem C7_no_raise_witness :
    advMatches "EXT. RIVER - DUSK\nBirds fly." ≠ [] ∧
    ∃ scenes, advParse pySetList "EXT. RIVER - DUSK\nBirds fly." = Except.ok scenes :=
  ⟨by decide, C7_no_raise.1 pySetList "EXT. RIVER - DUSK\nBirds fly." (by decide)⟩

end FilmCrew

namespace FilmCrew

theorem estPart_nonempty (n : Nat) (sd : SceneData) (ab : List String)
    (est : List VideoShot) (k : Nat) (hm : contMarker (pyTake sd.text 50) = false)
    (h : estPart n sd ab = Except.ok (est, k)) : est ≠ [] := by
  unfold estPart at h
  rw [hm] at h
  simp only [Bool.false_eq_true, if_false] at h
  cases ab with
  | cons a t =>
    simp only [Except.ok.injEq, Prod.mk.injEq] at h
    rw [← h.1]
    simp
  | nil =>
    cases hl : sd.location with
    | none => rw [hl] at h; simp at h
    | some loc =>
      rw [hl] at h
      simp only [Except.ok.injEq, Prod.mk.injEq] at h
      rw [← h.1]
      simp

/-- Claim C2 counterexample: a scene whose opening 50 characters contain
the CONTINUOUS continuity marker and whose span has no further content is
parsed into a Scene whose shot list is empty, so the non-emptiness
invariant fails on the advanced parser. -/
theorem C2_counterexample :
    (advParse pySetList "INT. OFFICE - DAY - CONTINUOUS").map
      (fun l => l.map (fun sc => sc.shots.length)) = Except.ok [0] := by
  rfl

/-- Claim C2 as amended: the derived shot list is non-empty whenever the
scene's opening 50 characters contain no continuity marker (with a
marker present and no other emission rule firing, the advanced parser
produces zero shots); the basic parser's shot list is unconditionally
non-empty. -/
theorem C2_shots_nonempty :
    (∀ (ord : List String → List String) (n : Nat) (sd : SceneData)
        (ab : List String) (db : List DialogueBlock) (vos : List VoiceOver)
        (shots : List VideoShot),
        contMarker (pyTake sd.text 50) = false →
        generateVideoShots ord n sd ab db vos = Except.ok shots →
        1 ≤ shots.length) ∧
    (∀ (n : Nat) (heading : String) (ab : List String) (db : List DialogueBlock),
        1 ≤ (bGenerateShots n heading ab db).length) := by
  constructor
  · intro ord n sd ab db vos shots hm h
    unfold generateVideoShots at h
    cases hE : estPart n sd ab with
    | error e => rw [hE] at h; exact absurd h (by simp)
    | ok p =>
      obtain ⟨est, k1⟩ := p
      have hne : est ≠ [] := estPart_nonempty n sd ab est k1 hm hE
      have hpos : 0 < est.length := List.length_pos.mpr hne
      rw [hE] at h
      dsimp only at h
      obtain ⟨t, ht⟩ := dialogueShotsAux_prefix n sd db
        (est ++ (actionShotsAux ord n sd vos k1 ab).1) none
        (actionShotsAux ord n sd vos k1 ab).2
      split at h
      · split at h
        · exact absurd h (by simp)
        · simp only [Except.ok.injEq] at h
          rw [← h]
          simp only [ht, List.length_append]
          omega
      · simp only [Except.ok.injEq] at h
        rw [← h]
        simp only [ht, List.length_append]
        omega
  · intro n heading ab db
    unfold bGenerateShots
    split_ifs <;> simp

/-- The scene dictionary of the concrete witness for the amended C2
statement. -/
def sdC2w : SceneData :=
  ⟨0, 12, "INT. A - DAY", some "A", some "DAY", some "PRESENT", "INT. A - DAY"⟩

/-- Claim C2 witness: the empty-content marker-free scene yields exactly
the single establishing shot. -/
theorem C2_shots_nonempty_witness :
    contMarker (pyTake sdC2w.text 50) = false ∧
    generateVideoShots pySetList 1 sdC2w [] [] [] =
      Except.ok [establishingShot 1 1 "Establishing A" sdC2w] ∧
    1 ≤ [establishingShot 1 1 "Establishing A" sdC2w].length ∧
    1 ≤ (bGenerateShots 1 "INT. A - DAY" [] []).length :=
  ⟨by decide, by rfl,
   C2_shots_nonempty.1 pySetList 1 sdC2w [] [] []
     [establishingShot 1 1 "Establishing A" sdC2w] (by decide) (by rfl),
   C2_shots_nonempty.2 1 "INT. A - DAY" [] []⟩

end FilmCrew

namespace FilmCrew

/-- Bounds that every dialogue-coverage shot satisfies: at most three
dialogue entries and at most two characters in frame. -/
def dlgCapsOk (s : VideoShot) : Bool :=
  decide (s.dialogue.length ≤ 3) && decide (s.characters_in_frame.length ≤ 2)

theorem dlgShot_caps (n : Nat) (sd : SceneData) (shotCount k : Nat) (d : DialogueBlock) :
    dlgCapsOk (dlgShot n sd shotCount k d) = true := by
  simp [dlgCapsOk, dlgShot]

theorem dlgAppend_caps (c : VideoShot) (d : DialogueBlock)
    (h : needsNewShot (some c) d.character = false) :
    dlgCapsOk (dlgAppend c d) = true := by
  simp only [needsNewShot, Bool.or_eq_false_iff, decide_eq_false_iff_not, not_le] at h
  simp only [dlgCapsOk, dlgAppend, Bool.and_eq_true, decide_eq_true_eq]
  constructor
  · simp only [List.length_append, List.length_cons, List.length_nil]
    omega
  · split
    · omega
    · simp only [List.length_append, List.length_cons, List.length_nil]
      omega

theorem dialogueShotsAux_caps (n : Nat) (sd : SceneData) :
    ∀ (db : List DialogueBlock) (shots : List VideoShot) (cur : Option VideoShot) (k : Nat),
      (∀ c, cur = some c → dlgCapsOk c = true) →
      (((dialogueShotsAux n sd shots cur k db).1.drop shots.length).all dlgCapsOk) = true := by
  intro db
  induction db with
  | nil =>
    intro shots cur k hc
    cases cur with
    | none => simp [dialogueShotsAux]
    | some c =>
      simp only [dialogueShotsAux]
      rw [List.drop_left]
      simp [hc c rfl]
  | cons d rest ih =>
    intro shots cur k hc
    by_cases h : needsNewShot cur d.character = true
    · cases cur with
      | none =>
        simp only [dialogueShotsAux, h, if_true]
        exact ih shots _ _ (fun c hcc => by
          rw [Option.some.injEq] at hcc
          rw [← hcc]
          exact dlgShot_caps n sd shots.length k d)
      | some c =>
        simp only [dialogueShotsAux, h, if_true]
        obtain ⟨t, ht⟩ := dialogueShotsAux_prefix n sd rest (shots ++ [c])
          (some (dlgShot n sd (shots ++ [c]).length k d)) (k + 1)
        have hall := ih (shots ++ [c])
          (some (dlgShot n sd (shots ++ [c]).length k d)) (k + 1)
          (fun c2 hcc => by
            rw [Option.some.injEq] at hcc
            rw [← hcc]
            exact dlgShot_caps n sd (shots ++ [c]).length (k + 1) d)
        rw [ht] at hall ⊢
        rw [List.drop_left] at hall
        rw [List.append_assoc, List.drop_left]
        simp only [List.all_append] at hall ⊢
        simp only [List.all_cons, List.all_nil, Bool.and_true, Bool.and_eq_true]
        exact ⟨hc c rfl, hall⟩
    · cases cur with
      | none => simp [needsNewShot] at h
      | some c =>
        rw [Bool.not_eq_true] at h
        simp only [dialogueShotsAux, h, Bool.false_eq_true, if_false]
        exact ih shots _ _ (fun c2 hcc => by
          rw [Option.some.injEq] at hcc
          rw [← hcc]
          exact dlgAppend_caps c d h)

/-- A plain present-tense scene dictionary used by concrete instances. -/
def sdPlain : SceneData :=
  ⟨0, 12, "INT. A - DAY", some "A", some "DAY", some "PRESENT", "INT. A - DAY"⟩

/-- Claim C3 counterexample: with JOHN and MARY already in the open shot
and two dialogue entries in it, the next JOHN block would not introduce a
third distinct character and the shot holds fewer than three entries, yet
the source forces a new shot; on the three-block exchange JOHN, MARY,
JOHN the loop therefore emits two shots. -/
theorem C3_counterexample :
    needsNewShot
      (some (dlgAppend (dlgShot 1 sdPlain 0 1 ⟨"JOHN", ["a"]⟩) ⟨"MARY", ["b"]⟩))
      "JOHN" = true ∧
    claimNeedsNewShot
      (some (dlgAppend (dlgShot 1 sdPlain 0 1 ⟨"JOHN", ["a"]⟩) ⟨"MARY", ["b"]⟩))
      "JOHN" = false ∧
    (dialogueShotsAux 1 sdPlain [] none 1
      [⟨"JOHN", ["a"]⟩, ⟨"MARY", ["b"]⟩, ⟨"JOHN", ["c"]⟩]).1.length = 2 := by
  refine ⟨by decide, by decide, by decide⟩

/-- Claim C3 as amended: a new dialogue shot is forced exactly when there
is no open shot, the open shot already holds two or more characters in
frame (whether or not the next speaker is among them), or it already
holds three or more dialogue entries; consequently every shot emitted by
the dialogue-coverage loop holds at most three dialogue entries and at
most two characters, so four consecutive two-character exchanges never
land in a single shot. -/
theorem C3_dialogue_grouping :
    (∀ ch : String, needsNewShot none ch = true) ∧
    (∀ (s : VideoShot) (ch : String),
        needsNewShot (some s) ch = true ↔
          2 ≤ s.characters_in_frame.length ∨ 3 ≤ s.dialogue.length) ∧
    (∀ (n : Nat) (sd : SceneData) (db : List DialogueBlock)
        (shots : List VideoShot) (k : Nat),
        (((dialogueShotsAux n sd shots none k db).1.drop shots.length).all
          dlgCapsOk) = true) := by
  refine ⟨fun ch => rfl, fun s ch => ?_, fun n sd db shots k => ?_⟩
  · simp [needsNewShot]
  · exact dialogueShotsAux_caps n sd db shots none k (fun c h => by cases h)

end FilmCrew

namespace FilmCrew

theorem detectShotType_cases (a : String) (r : String) (h : detectShotType a = some r) :
    r = "WIDE" ∨ r = "MEDIUM" ∨ r = "CLOSE-UP" ∨ r = "EXTREME CLOSE-UP" ∨
      r = "OVER-THE-SHOULDER" ∨ r = "POV" ∨ r = "INSERT" := by
  simp only [detectShotType, shotFamilies, List.findSome?_cons, List.findSome?_nil] at h
  repeat' split at h
  all_goals simp_all

theorem determineDialogueShotType_cases (c : Nat) (ch : String) :
    determineDialogueShotType c ch = "MEDIUM" ∨
      determineDialogueShotType c ch = "CLOSE-UP" ∨
      determineDialogueShotType c ch = "OVER-THE-SHOULDER" := by
  unfold determineDialogueShotType
  split_ifs <;> simp

/-- Description the establishing shot receives: the first action block
truncated to 200 characters, else the synthesized location line. -/
def estDesc (ab : List String) (loc : String) : String :=
  match ab with
  | a :: _ => pyTake a 200
  | [] => "Establishing " ++ loc

theorem estPart_of_no_marker (n : Nat) (sd : SceneData) (ab : List String) (loc : String)
    (hm : contMarker (pyTake sd.text 50) = false) (hl : sd.location = some loc) :
    estPart n sd ab = Except.ok ([establishingShot n 1 (estDesc ab loc) sd], 2) := by
  unfold estPart
  rw [hm]
  simp only [Bool.false_eq_true, if_false]
  cases ab with
  | cons a t => rfl
  | nil => rw [hl]; rfl

theorem estPart_of_marker (n : Nat) (sd : SceneData) (ab : List String)
    (hm : contMarker (pyTake sd.text 50) = true) :
    estPart n sd ab = Except.ok ([], 1) := by
  unfold estPart
  rw [hm]
  rfl

theorem actionShotsAux_all (P : VideoShot → Bool) (ord : List String → List String)
    (n : Nat) (sd : SceneData) (vos : List VoiceOver)
    (hP : ∀ a k, P (actionShot ord n sd vos a k) = true) :
    ∀ (ab : List String) (k : Nat), ((actionShotsAux ord n sd vos k ab).1.all P) = true := by
  intro ab
  induction ab with
  | nil => intro k; rfl
  | cons a rest ih =>
    intro k
    unfold actionShotsAux
    split
    · simp only [List.all_cons, Bool.and_eq_true]
      exact ⟨hP a k, ih (k + 1)⟩
    · exact ih k

theorem voShotsAux_all (P : VideoShot → Bool) (n : Nat)
    (hP : ∀ k vo, P (voShot n k vo) = true) :
    ∀ (vos : List VoiceOver) (k : Nat), ((voShotsAux n k vos).1.all P) = true := by
  intro vos
  induction vos with
  | nil => intro k; rfl
  | cons vo rest ih =>
    intro k
    unfold voShotsAux
    split
    · simp only [List.all_cons, Bool.and_eq_true]
      exact ⟨hP k vo, ih (k + 1)⟩
    · exact ih k

theorem dialogueShotsAux_all (P : VideoShot → Bool) (n : Nat) (sd : SceneData)
    (hnew : ∀ count k d, P (dlgShot n sd count k d) = true)
    (happ : ∀ c d, P c = true → P (dlgAppend c d) = true) :
    ∀ (db : List DialogueBlock) (shots : List VideoShot) (cur : Option VideoShot) (k : Nat),
      shots.all P = true → (∀ c, cur = some c → P c = true) →
      ((dialogueShotsAux n sd shots cur k db).1.all P) = true := by
  intro db
  induction db with
  | nil =>
    intro shots cur k hs hc
    cases cur with
    | none => exact hs
    | some c =>
      simp only [dialogueShotsAux, List.all_append, Bool.and_eq_true]
      exact ⟨hs, by simp [hc c rfl]⟩
  | cons d rest ih =>
    intro shots cur k hs hc
    by_cases h : needsNewShot cur d.character = true
    · cases cur with
      | none =>
        simp only [dialogueShotsAux, h, if_true]
        exact ih shots _ _ hs (fun c2 hcc => by
          rw [Option.some.injEq] at hcc
          rw [← hcc]
          exact hnew shots.length k d)
      | some c =>
        simp only [dialogueShotsAux, h, if_true]
        refine ih (shots ++ [c]) _ _ ?_ (fun c2 hcc => by
          rw [Option.some.injEq] at hcc
          rw [← hcc]
          exact hnew (shots ++ [c]).length k d)
        simp only [List.all_append, Bool.and_eq_true]
        exact ⟨hs, by simp [hc c rfl]⟩
    · cases cur with
      | none => simp [needsNewShot] at h
      | some c =>
        rw [Bool.not_eq_true] at h
        simp only [dialogueShotsAux, h, Bool.false_eq_true, if_false]
        exact ih shots _ _ hs (fun c2 hcc => by
          rw [Option.some.injEq] at hcc
          rw [← hcc]
          exact happ c d (hc c rfl))

theorem generateVideoShots_all (P : VideoShot → Bool) (ord : List String → List String)
    (n : Nat) (sd : SceneData) (ab : List String) (db : List DialogueBlock)
    (vos : List VoiceOver) (shots : List VideoShot)
    (hgen : generateVideoShots ord n sd ab db vos = Except.ok shots)
    (hestAll : ∀ est k, estPart n sd ab = Except.ok (est, k) → est.all P = true)
    (hact : ∀ a k, P (actionShot ord n sd vos a k) = true)
    (hnew : ∀ count k d, P (dlgShot n sd count k d) = true)
    (happ : ∀ c d, P c = true → P (dlgAppend c d) = true)
    (hvoAll : ∀ k, ((voShotsAux n k vos).1.all P) = true)
    (hclose : ∀ k c, closingShot n sd k = Except.ok c → P c = true) :
    shots.all P = true := by
  unfold generateVideoShots at hgen
  cases hE : estPart n sd ab with
  | error e => rw [hE] at hgen; exact absurd hgen (by simp)
  | ok p =>
    obtain ⟨est, k1⟩ := p
    rw [hE] at hgen
    dsimp only at hgen
    have hdlg := dialogueShotsAux_all P n sd hnew happ db
      (est ++ (actionShotsAux ord n sd vos k1 ab).1) none
      (actionShotsAux ord n sd vos k1 ab).2
      (by simp only [List.all_append, Bool.and_eq_true]
          exact ⟨hestAll est k1 hE, actionShotsAux_all P ord n sd vos hact ab k1⟩)
      (fun c2 hcc => by cases hcc)
    have hvos := hvoAll
      (dialogueShotsAux n sd (est ++ (actionShotsAux ord n sd vos k1 ab).1) none
        (actionShotsAux ord n sd vos k1 ab).2 db).2
    split at hgen
    · split at hgen
      · exact absurd hgen (by simp)
      · rename_i c hC
        simp only [Except.ok.injEq] at hgen
        rw [← hgen]
        simp only [List.all_append, Bool.and_eq_true]
        exact ⟨⟨hdlg, hvos⟩, by simp [hclose _ c hC]⟩
    · simp only [Except.ok.injEq] at hgen
      rw [← hgen]
      simp only [List.all_append, Bool.and_eq_true]
      exact ⟨hdlg, hvos⟩

end FilmCrew

namespace FilmCrew

/-- A 201-character action block, longer than the 200-character
description truncation. -/
def bigA : String := String.mk (List.replicate 201 'a')

set_option maxRecDepth 100000 in
/-- Claim C4 counterexample: with a 201-character first action block the
establishing shot description is the 200-character truncation, not the
block itself, so description-equals-first-action-block fails. -/
theorem C4_counterexample :
    (generateVideoShots pySetList 1 sdPlain [bigA] [] []).map
      (fun shots => shots.map (fun s => s.description)) =
      Except.ok [String.mk (List.replicate 200 'a'), String.mk (List.replicate 200 'a')] ∧
    String.mk (List.replicate 200 'a') ≠ bigA := by
  refine ⟨by rfl, by decide⟩

/-- Claim C4 as amended: without a continuity marker in the opening 50
characters the first emitted shot is the establishing shot with
shot_type WIDE ESTABLISHING, camera movement slow push in or crane,
duration 5-8 seconds, and description equal to the first 200 characters
of the first action block, else the synthesized Establishing-location
line; with a marker present no emitted shot has the WIDE ESTABLISHING
type. -/
theorem C4_establishing_shot :
    (∀ (ord : List String → List String) (n : Nat) (sd : SceneData) (ab : List String)
        (db : List DialogueBlock) (vos : List VoiceOver) (loc : String),
        sd.location = some loc →
        contMarker (pyTake sd.text 50) = false →
        ∃ shots, generateVideoShots ord n sd ab db vos = Except.ok shots ∧
          shots.head? = some (establishingShot n 1 (estDesc ab loc) sd) ∧
          (establishingShot n 1 (estDesc ab loc) sd).shot_type = "WIDE ESTABLISHING" ∧
          (establishingShot n 1 (estDesc ab loc) sd).camera_movement =
            "slow push in or crane" ∧
          (establishingShot n 1 (estDesc ab loc) sd).duration = "5-8 seconds" ∧
          (establishingShot n 1 (estDesc ab loc) sd).description = estDesc ab loc) ∧
    (∀ (ord : List String → List String) (n : Nat) (sd : SceneData) (ab : List String)
        (db : List DialogueBlock) (vos : List VoiceOver) (shots : List VideoShot),
        contMarker (pyTake sd.text 50) = true →
        generateVideoShots ord n sd ab db vos = Except.ok shots →
        shots.all (fun s => !(s.shot_type == "WIDE ESTABLISHING")) = true) := by
  constructor
  · intro ord n sd ab db vos loc hl hm
    unfold generateVideoShots
    rw [estPart_of_no_marker n sd ab loc hm hl]
    dsimp only
    obtain ⟨t, ht⟩ := dialogueShotsAux_prefix n sd db
      ([establishingShot n 1 (estDesc ab loc) sd] ++ (actionShotsAux ord n sd vos 2 ab).1)
      none (actionShotsAux ord n sd vos 2 ab).2
    split
    · split
      · rename_i e3 heq
        exact absurd heq (closingShot_no_error n sd _ e3 (by simp [hl]))
      · refine ⟨_, rfl, ?_, rfl, rfl, rfl, rfl⟩
        rw [ht]
        simp
    · refine ⟨_, rfl, ?_, rfl, rfl, rfl, rfl⟩
      rw [ht]
      simp
  · intro ord n sd ab db vos shots hm hgen
    refine generateVideoShots_all _ ord n sd ab db vos shots hgen ?_ ?_ ?_ ?_ ?_ ?_
    · intro est k hE
      rw [estPart_of_marker n sd ab hm] at hE
      simp only [Except.ok.injEq, Prod.mk.injEq] at hE
      rw [← hE.1]
      rfl
    · intro a k
      cases hd : detectShotType a with
      | none => simp [actionShot, hd]
      | some r =>
        rcases detectShotType_cases a r hd with rfl | rfl | rfl | rfl | rfl | rfl | rfl <;>
          simp [actionShot, hd]
    · intro count k d
      rcases determineDialogueShotType_cases count d.character with h | h | h <;>
        simp [dlgShot, h]
    · intro c d hPc
      simpa [dlgAppend] using hPc
    · intro k
      exact voShotsAux_all _ n (fun j vo => by simp [voShot]) vos k
    · intro k c hC
      unfold closingShot at hC
      cases hls : sd.location with
      | none => rw [hls] at hC; exact absurd hC (by simp)
      | some l =>
        rw [hls] at hC
        simp only [Except.ok.injEq] at hC
        rw [← hC]
        rfl

/-- Scene dictionary whose opening characters carry a continuity marker. -/
def sdCont : SceneData :=
  ⟨0, 30, "INT. OFFICE - DAY - CONTINUOUS", some "OFFICE", some "DAY", some "PRESENT",
   "INT. OFFICE - DAY - CONTINUOUS"⟩

/-- Claim C4 witness: a concrete marker-free scene with one short action
block gets the establishing shot first with the stated fields, and a
concrete marker-bearing scene gets no WIDE ESTABLISHING shot at all. -/
theorem C4_establishing_shot_witness :
    sdPlain.location = some "A" ∧
    contMarker (pyTake sdPlain.text 50) = false ∧
    (∃ shots, generateVideoShots pySetList 1 sdPlain ["JOHN sits."] [] [] =
        Except.ok shots ∧
      shots.head? = some (establishingShot 1 1 (estDesc ["JOHN sits."] "A") sdPlain) ∧
      (establishingShot 1 1 (estDesc ["JOHN sits."] "A") sdPlain).shot_type =
        "WIDE ESTABLISHING" ∧
      (establishingShot 1 1 (estDesc ["JOHN sits."] "A") sdPlain).camera_movement =
        "slow push in or crane" ∧
      (establishingShot 1 1 (estDesc ["JOHN sits."] "A") sdPlain).duration =
        "5-8 seconds" ∧
      (establishingShot 1 1 (estDesc ["JOHN sits."] "A") sdPlain).description =
        estDesc ["JOHN sits."] "A") ∧
    contMarker (pyTake sdCont.text 50) = true ∧
    generateVideoShots pySetList 1 sdCont [] [] [] = Except.ok [] ∧
    ([] : List VideoShot).all (fun s => !(s.shot_type == "WIDE ESTABLISHING")) = true :=
  ⟨rfl, by decide,
   C4_establishing_shot.1 pySetList 1 sdPlain ["JOHN sits."] [] [] "A" rfl (by decide),
   by decide, by rfl,
   C4_establishing_shot.2 pySetList 1 sdCont [] [] [] [] (by decide) (by rfl)⟩

end FilmCrew

namespace FilmCrew

/-- Claim C5 counterexample: an off-screen cue line is not redirected
into a VoiceOver; it opens a regular dialogue block whose character name
keeps the O.S. suffix, and the scene has no voice-over entry. -/
theorem C5_counterexample :
    (advParse pySetList "INT. A - DAY\n\nSARAH (O.S.)\nHello.").map
      (fun l => l.map (fun sc => (sc.voice_overs, sc.dialogue_blocks))) =
      Except.ok [([], [⟨"SARAH (O.S.)", ["Hello."]⟩])] := by
  rfl

/-- Claim C5 as amended: only V.O. cue lines redirect the following
dialogue lines into VoiceOver entries with timing during_scene and the
suffix stripped from the stored name; the scenario text parses to
exactly one such VoiceOver and no dialogue block, a V.O. cue line only
sets the open character, and a dialogue line under an open V.O. cue
appends exactly one during_scene VoiceOver leaving dialogue_blocks
unchanged. -/
theorem C5_voiceover_redirect :
    ((advParse pySetList "INT. A - DAY\n\nSARAH (V.O.)\nEvery morning starts the same.").map
      (fun l => l.map (fun sc => (sc.voice_overs, sc.dialogue_blocks))) =
      Except.ok [([⟨"SARAH", "Every morning starts the same.", "INT. A - DAY",
        "during_scene", ""⟩], [])]) ∧
    (∀ (heading : String) (st : PState) (line name : String),
        voCue (pyStrip line) = some name →
        processLine heading st line =
          { st with current_character := some (name ++ " (V.O.)") }) ∧
    (∀ (heading : String) (st : PState) (line ch : String),
        pyStrip line ≠ "" →
        voCue (pyStrip line) = none →
        (charCue (pyStrip line) && pyIsUpper (pyStrip line)) = false →
        st.current_character = some ch →
        pyIn "(V.O.)" ch = true →
        parenMatch (pyStrip line) = false →
        processLine heading st line =
          { st with scene_voice_overs := st.scene_voice_overs ++
              [⟨pyReplace ch " (V.O.)" "", pyStrip line, heading, "during_scene", ""⟩] }) := by
  refine ⟨by rfl, ?_, ?_⟩
  · intro heading st line name hv
    have hne : ¬ pyStrip line = "" := by
      intro he
      rw [he] at hv
      rw [show voCue "" = none from rfl] at hv
      cases hv
    unfold processLine
    rw [if_neg hne, hv]
  · intro heading st line ch hne hv hcc hcur hvo hpar
    unfold processLine
    rw [if_neg hne, hv]
    dsimp only
    rw [hcc]
    simp only [Bool.false_eq_true, if_false]
    rw [hcur]
    dsimp only
    rw [hpar]
    simp only [Bool.not_false, if_true]
    rw [hvo]
    simp only [if_true]

/-- Claim C5 witness: the scenario cue and dialogue lines instantiate the
two processLine clauses of the redirect theorem. -/
theorem C5_voiceover_redirect_witness :
    voCue (pyStrip "SARAH (V.O.)") = some "SARAH" ∧
    processLine "INT. A - DAY" initState "SARAH (V.O.)" =
      { initState with current_character := some ("SARAH" ++ " (V.O.)") } ∧
    processLine "INT. A - DAY"
      { initState with current_character := some "SARAH (V.O.)" }
      "Every morning starts the same." =
      { { initState with current_character := some "SARAH (V.O.)" } with
        scene_voice_overs :=
          ({ initState with current_character := some "SARAH (V.O.)" } : PState).scene_voice_overs ++
            [⟨pyReplace "SARAH (V.O.)" " (V.O.)" "",
              pyStrip "Every morning starts the same.",
              "INT. A - DAY", "during_scene", ""⟩] } :=
  ⟨by decide,
   C5_voiceover_redirect.2.1 "INT. A - DAY" initState "SARAH (V.O.)" "SARAH" (by decide),
   C5_voiceover_redirect.2.2 "INT. A - DAY"
     { initState with current_character := some "SARAH (V.O.)" }
     "Every morning starts the same." "SARAH (V.O.)"
     (by decide) (by decide) (by decide) rfl (by decide) (by decide)⟩

/-- Claim C6 counterexample: the stop word THE, an all-caps line, opens a
dialogue block in the scene content loop, so the guard does not apply to
the line classifier. -/
theorem C6_counterexample :
    (advParse pySetList "INT. A - DAY\n\nTHE\nend.").map
      (fun l => l.map (fun sc => sc.dialogue_blocks)) =
      Except.ok [[⟨"THE", ["end."]⟩]] := by
  rfl

/-- Claim C6 as amended: the length-and-stop-word guard lives in the
action-description character extractor, not in the line classifier:
every name the extractor returns is longer than two characters, outside
the stop-word set, uppercase and alphabetic. -/
theorem C6_action_char_guard (f : List String → List String) (hf : IsSetList f)
    (action w : String) (hw : w ∈ extractCharsFromAction f action) :
    2 < w.length ∧ w ∉ stopWords ∧ pyIsUpper w = true ∧
      w.toList.all Char.isAlpha = true := by
  unfold extractCharsFromAction at hw
  have hw2 := ((hf _).2 w).mp hw
  obtain ⟨_, hp⟩ := List.mem_filter.mp hw2
  simp only [Bool.and_eq_true, decide_eq_true_eq, Bool.not_eq_true] at hp
  refine ⟨hp.1.1.2, ?_, hp.1.1.1, hp.1.2.2⟩
  intro hmem
  simp only [stopWords, List.mem_cons, List.not_mem_nil, or_false] at hmem
  rcases hmem with rfl | rfl | rfl | rfl | rfl | rfl | rfl <;>
    exact absurd hp.2 (by decide)

/-- Claim C6 witness: the capitalized name JOHN survives the extractor on
an action line that also holds the stop words THE and AND, and satisfies
the guard facts. -/
theorem C6_action_char_guard_witness :
    "JOHN" ∈ extractCharsFromAction pySetList "THE JOHN AND" ∧
    (2 < "JOHN".length ∧ "JOHN" ∉ stopWords ∧ pyIsUpper "JOHN" = true ∧
      "JOHN".toList.all Char.isAlpha = true) :=
  ⟨by decide,
   C6_action_char_guard pySetList isSetList_pySetList "THE JOHN AND" "JOHN" (by decide)⟩

end FilmCrew

namespace FilmCrew

theorem scrubbed_cases {α β : Type} (f : α → β) (e1 e2 : Except PyErr α)
    (h : e1.map f = e2.map f) :
    (∃ er, e1 = Except.error er ∧ e2 = Except.error er) ∨
      (∃ a1 a2, e1 = Except.ok a1 ∧ e2 = Except.ok a2 ∧ f a1 = f a2) := by
  cases e1 with
  | error er =>
    cases e2 with
    | error er2 =>
      refine Or.inl ⟨er, rfl, ?_⟩
      simp only [Except.map] at h
      injection h with h2
      rw [← h2]
    | ok b => simp [Except.map] at h
  | ok a =>
    cases e2 with
    | error er2 => simp [Except.map] at h
    | ok b =>
      right
      refine ⟨a, b, rfl, rfl, ?_⟩
      simpa [Except.map] using h

theorem scrub_actionShot (ord1 ord2 : List String → List String) (n : Nat)
    (sd : SceneData) (vos : List VoiceOver) (a : String) (k : Nat) :
    scrubShot (actionShot ord1 n sd vos a k) = scrubShot (actionShot ord2 n sd vos a k) :=
  rfl

theorem actionShotsAux_scrub (ord1 ord2 : List String → List String) (n : Nat)
    (sd : SceneData) (vos : List VoiceOver) :
    ∀ (ab : List String) (k : Nat),
      ((actionShotsAux ord1 n sd vos k ab).1.map scrubShot =
        (actionShotsAux ord2 n sd vos k ab).1.map scrubShot) ∧
      (actionShotsAux ord1 n sd vos k ab).2 = (actionShotsAux ord2 n sd vos k ab).2 := by
  intro ab
  induction ab with
  | nil => intro k; exact ⟨rfl, rfl⟩
  | cons a rest ih =>
    intro k
    unfold actionShotsAux
    split
    · obtain ⟨h1, h2⟩ := ih (k + 1)
      refine ⟨?_, h2⟩
      simp only [List.map_cons]
      rw [scrub_actionShot ord1 ord2, h1]
    · exact ih k

theorem dialogueShotsAux_scrub (n : Nat) (sd : SceneData) :
    ∀ (db : List DialogueBlock) (shotsA shotsB : List VideoShot)
      (cur : Option VideoShot) (k : Nat),
      shotsA.map scrubShot = shotsB.map scrubShot →
      ((dialogueShotsAux n sd shotsA cur k db).1.map scrubShot =
        (dialogueShotsAux n sd shotsB cur k db).1.map scrubShot) ∧
      (dialogueShotsAux n sd shotsA cur k db).2 =
        (dialogueShotsAux n sd shotsB cur k db).2 := by
  intro db
  induction db with
  | nil =>
    intro shotsA shotsB cur k h
    cases cur with
    | none => exact ⟨h, rfl⟩
    | some c =>
      constructor
      · simp only [dialogueShotsAux]
        simp only [List.map_append, h]
      · rfl
  | cons d rest ih =>
    intro shotsA shotsB cur k h
    have hlen : shotsA.length = shotsB.length := by
      have h2 := congrArg List.length h
      simpa using h2
    by_cases hn : needsNewShot cur d.character = true
    · cases cur with
      | none =>
        simp only [dialogueShotsAux, hn, if_true]
        rw [hlen]
        exact ih shotsA shotsB _ (k + 1) h
      | some c =>
        simp only [dialogueShotsAux, hn, if_true]
        have hlen2 : (shotsA ++ [c]).length = (shotsB ++ [c]).length := by
          simp [hlen]
        rw [hlen2]
        exact ih (shotsA ++ [c]) (shotsB ++ [c]) _ (k + 1)
          (by simp only [List.map_append, h])
    · rw [Bool.not_eq_true] at hn
      cases cur with
      | none => simp [needsNewShot] at hn
      | some c =>
        simp only [dialogueShotsAux, hn, Bool.false_eq_true, if_false]
        exact ih shotsA shotsB _ k h

theorem generateVideoShots_scrub (ord1 ord2 : List String → List String) (n : Nat)
    (sd : SceneData) (ab : List String) (db : List DialogueBlock)
    (vos : List VoiceOver) :
    (generateVideoShots ord1 n sd ab db vos).map (List.map scrubShot) =
      (generateVideoShots ord2 n sd ab db vos).map (List.map scrubShot) := by
  unfold generateVideoShots
  cases hE : estPart n sd ab with
  | error e => rfl
  | ok p =>
    obtain ⟨est, k1⟩ := p
    dsimp only
    obtain ⟨ha1, ha2⟩ := actionShotsAux_scrub ord1 ord2 n sd vos ab k1
    rw [ha2]
    obtain ⟨hd1, hd2⟩ := dialogueShotsAux_scrub n sd db
      (est ++ (actionShotsAux ord1 n sd vos k1 ab).1)
      (est ++ (actionShotsAux ord2 n sd vos k1 ab).1) none
      (actionShotsAux ord2 n sd vos k1 ab).2
      (by simp only [List.map_append, ha1])
    rw [hd2]
    have hlen := congrArg List.length hd1
    simp only [List.length_map] at hlen
    have hcn : closingNeeded sd
        ((dialogueShotsAux n sd (est ++ (actionShotsAux ord1 n sd vos k1 ab).1) none
          (actionShotsAux ord2 n sd vos k1 ab).2 db).1 ++
          (voShotsAux n (dialogueShotsAux n sd
            (est ++ (actionShotsAux ord2 n sd vos k1 ab).1) none
            (actionShotsAux ord2 n sd vos k1 ab).2 db).2 vos).1) =
        closingNeeded sd
        ((dialogueShotsAux n sd (est ++ (actionShotsAux ord2 n sd vos k1 ab).1) none
          (actionShotsAux ord2 n sd vos k1 ab).2 db).1 ++
          (voShotsAux n (dialogueShotsAux n sd
            (est ++ (actionShotsAux ord2 n sd vos k1 ab).1) none
            (actionShotsAux ord2 n sd vos k1 ab).2 db).2 vos).1) := by
      unfold closingNeeded
      rw [List.length_append, List.length_append, hlen]
    rw [hcn]
    split
    · split
      · rfl
      · dsimp only [Except.map]
        simp only [List.map_append, hd1]
    · dsimp only [Except.map]
      simp only [List.map_append, hd1]

theorem finishScene_scrub (sd : SceneData) (n : Nat) (full : String) (st : PState)
    (ab : List String) (e1 e2 : Except PyErr (List VideoShot))
    (h : e1.map (List.map scrubShot) = e2.map (List.map scrubShot)) :
    (finishScene sd n full st ab e1).map scrubScene =
      (finishScene sd n full st ab e2).map scrubScene := by
  rcases scrubbed_cases (List.map scrubShot) e1 e2 h with
    ⟨er, h1, h2⟩ | ⟨s1, s2, h1, h2, hsh⟩
  · rw [h1, h2]
  · rw [h1, h2]
    unfold finishScene
    dsimp only
    cases sd.location with
    | none => rfl
    | some loc =>
      cases sd.time with
      | none => rfl
      | some tm =>
        dsimp only [Except.map]
        simp [scrubScene, hsh]

theorem processScene_scrub (ord1 ord2 : List String → List String) (sd : SceneData)
    (i : Nat) (full : String) :
    (processScene ord1 sd i full).map scrubScene =
      (processScene ord2 sd i full).map scrubScene := by
  simp only [processScene]
  exact finishScene_scrub sd i full _ _ _ _
    (generateVideoShots_scrub ord1 ord2 i sd _ _ _)

theorem parseScenesWith_scrub (f g : SceneData → Nat → Except PyErr EnhancedScene)
    (h : ∀ sd i, (f sd i).map scrubScene = (g sd i).map scrubScene) :
    ∀ (sds : List SceneData) (i : Nat),
      (parseScenesWith f i sds).map (List.map scrubScene) =
        (parseScenesWith g i sds).map (List.map scrubScene) := by
  intro sds
  induction sds with
  | nil => intro i; rfl
  | cons sd rest ih =>
    intro i
    rcases scrubbed_cases scrubScene (f sd i) (g sd i) (h sd i) with
      ⟨er, h1, h2⟩ | ⟨a1, a2, h1, h2, hsc⟩
    · rw [parseScenesWith.eq_2, parseScenesWith.eq_2, h1, h2]
    · rw [parseScenesWith.eq_2, parseScenesWith.eq_2, h1, h2]
      dsimp only
      rcases scrubbed_cases (List.map scrubScene) (parseScenesWith f (i + 1) rest)
        (parseScenesWith g (i + 1) rest) (ih (i + 1)) with
        ⟨er, hr1, hr2⟩ | ⟨l1, l2, hr1, hr2, hl⟩
      · rw [hr1, hr2]
      · rw [hr1, hr2]
        dsimp only [Except.map]
        simp only [List.map_cons, hsc, hl]

/-- Claim C8 as amended: the parse is a deterministic function of the
text and the interpreter's set-enumeration order; any two enumeration
choices yield Scene and Shot graphs that agree everywhere except in the
characters_in_frame lists, which scrubScene erases. -/
theorem C8_determinism :
    ∀ (ord1 ord2 : List String → List String) (content : String),
      (advParse ord1 content).map (List.map scrubScene) =
        (advParse ord2 content).map (List.map scrubScene) := by
  intro ord1 ord2 content
  unfold advParse parseScenes
  exact parseScenesWith_scrub _ _
    (fun sd i => processScene_scrub ord1 ord2 sd i content) (extractScenes content) 1

/-- Text whose single long action line names two characters: its action
shot's characters_in_frame comes from a set conversion. -/
def c8text : String :=
  "INT. A - DAY\n\nJOHN walks slowly across the empty parking lot toward MARY who stands waiting beside the broken streetlight."

set_option maxRecDepth 100000 in
/-- Claim C8 counterexample: two legitimate set-enumeration orders, such
as two interpreter runs with different string hash seeds produce, give
structurally different Scene and Shot graphs on the same input text: the
characters_in_frame list of the action shot comes out in different
orders. -/
theorem C8_counterexample :
    IsSetList pySetList ∧ IsSetList revSetList ∧
      advParse pySetList c8text ≠ advParse revSetList c8text := by
  refine ⟨isSetList_pySetList, isSetList_revSetList, ?_⟩
  intro hEq
  have hproj := congrArg
    (fun e => e.toOption.map
      (fun l => l.map (fun sc => sc.shots.map (fun s => s.characters_in_frame)))) hEq
  revert hproj
  decide

end FilmCrew

namespace FilmCrew

/-- Claim C9: the enhanced archive parser renders scene ordinals above 26
as the quotient by 26 followed by the letter at 65 plus the remainder,
so scene 27 becomes 1B, while ordinals up to 26 stay plain decimal. -/
theorem C9_letter_suffix :
    (∀ n : Nat, 26 < n →
      enhancedSceneNumStr n =
        toString (n / 26) ++ String.singleton (Char.ofNat (65 + n % 26))) ∧
    (∀ n : Nat, n ≤ 26 → enhancedSceneNumStr n = toString n) ∧
    enhancedSceneNumStr 27 = "1B" := by
  refine ⟨fun n h => ?_, fun n h => ?_, by decide⟩
  · unfold enhancedSceneNumStr
    rw [if_pos h]
  · unfold enhancedSceneNumStr
    rw [if_neg (by omega)]

/-- Claim C9 witness: ordinals 27 and 5 instantiate the two branches. -/
theorem C9_letter_suffix_witness :
    26 < 27 ∧
    enhancedSceneNumStr 27 =
      toString (27 / 26) ++ String.singleton (Char.ofNat (65 + 27 % 26)) ∧
    5 ≤ 26 ∧ enhancedSceneNumStr 5 = toString 5 :=
  ⟨by decide, C9_letter_suffix.1 27 (by decide), by decide,
   C9_letter_suffix.2.1 5 (by decide)⟩

/-- Timing invariant of every voice-over the scene loop creates. -/
def voP (v : VoiceOver) : Bool := v.timing == "during_scene"

theorem processLine_vos (heading : String) (st : PState) (line : String)
    (h : st.scene_voice_overs.all voP = true) :
    ((processLine heading st line).scene_voice_overs.all voP) = true := by
  unfold processLine
  by_cases h0 : pyStrip line = ""
  · rw [if_pos h0]
    simpa using h
  · rw [if_neg h0]
    cases hv : voCue (pyStrip line) with
    | some name => simpa using h
    | none =>
      dsimp only
      by_cases hc : (charCue (pyStrip line) && pyIsUpper (pyStrip line)) = true
      · rw [if_pos hc]
        simpa using h
      · rw [if_neg hc]
        cases hcc : st.current_character with
        | none => simpa using h
        | some ch =>
          dsimp only
          by_cases hp : (!parenMatch (pyStrip line)) = true
          · rw [if_pos hp]
            by_cases hvo : (pyIn "(V.O.)" ch) = true
            · rw [if_pos hvo]
              simp only [List.all_append, Bool.and_eq_true]
              exact ⟨h, by simp [voP]⟩
            · rw [if_neg hvo]
              by_cases hd : (!st.dialogue_blocks.isEmpty) = true
              · rw [if_pos hd]
                simpa using h
              · rw [if_neg hd]
                simpa using h
          · rw [if_neg hp]
            simpa using h

theorem foldl_vos (heading : String) :
    ∀ (lines : List String) (st : PState),
      st.scene_voice_overs.all voP = true →
      (((lines.foldl (processLine heading) st).scene_voice_overs).all voP) = true := by
  intro lines
  induction lines with
  | nil => intro st h; exact h
  | cons l rest ih =>
    intro st h
    exact ih (processLine heading st l) (processLine_vos heading st l h)

theorem voShotsAux_none (n : Nat) :
    ∀ (vos : List VoiceOver) (k : Nat), vos.all voP = true →
      voShotsAux n k vos = ([], k) := by
  intro vos
  induction vos with
  | nil => intro k _; rfl
  | cons vo rest ih =>
    intro k h
    simp only [List.all_cons, Bool.and_eq_true] at h
    have ht : vo.timing = "during_scene" := by
      have := h.1
      simpa [voP] using this
    unfold voShotsAux
    rw [ht]
    simp only [show (("during_scene" == "transitional") = false) from rfl]
    exact ih k h.2

theorem estPart_all (P : VideoShot → Bool) (n : Nat) (sd : SceneData) (ab : List String)
    (hP : ∀ j d, P (establishingShot n j d sd) = true) :
    ∀ est k, estPart n sd ab = Except.ok (est, k) → est.all P = true := by
  intro est k h
  unfold estPart at h
  split at h
  · simp only [Except.ok.injEq, Prod.mk.injEq] at h
    rw [← h.1]
    rfl
  · cases ab with
    | cons a t =>
      simp only [Except.ok.injEq, Prod.mk.injEq] at h
      rw [← h.1]
      simp [hP]
    | nil =>
      cases hl : sd.location with
      | none => rw [hl] at h; exact absurd h (by simp)
      | some loc =>
        rw [hl] at h
        simp only [Except.ok.injEq, Prod.mk.injEq] at h
        rw [← h.1]
        simp [hP]

theorem finishScene_fields (sd : SceneData) (n : Nat) (full : String) (st : PState)
    (ab : List String) (shots : List VideoShot) (loc tm : String)
    (hl : sd.location = some loc) (ht : sd.time = some tm) :
    ∃ sc, finishScene sd n full st ab (Except.ok shots) = Except.ok sc ∧
      sc.voice_overs = st.scene_voice_overs ∧ sc.shots = shots := by
  unfold finishScene
  rw [hl, ht]
  exact ⟨_, rfl, rfl, rfl⟩

theorem finishGen_noVarious (ord : List String → List String) (sd : SceneData) (n : Nat)
    (full : String) (st : PState) (ab : List String)
    (hvos : st.scene_voice_overs.all voP = true) :
    (match finishScene sd n full st ab
        (generateVideoShots ord n sd ab st.dialogue_blocks st.scene_voice_overs) with
     | Except.ok sc =>
         sc.voice_overs.all voP = true ∧
         sc.shots.all (fun s => !(s.shot_type == "VARIOUS")) = true
     | Except.error _ => True) := by
  cases hG : generateVideoShots ord n sd ab st.dialogue_blocks st.scene_voice_overs with
  | error e => trivial
  | ok shots =>
    have hall : shots.all (fun s => !(s.shot_type == "VARIOUS")) = true := by
      refine generateVideoShots_all _ ord n sd ab st.dialogue_blocks
        st.scene_voice_overs shots hG ?_ ?_ ?_ ?_ ?_ ?_
      · exact estPart_all _ n sd ab (fun j d => by simp [establishingShot])
      · intro a k
        cases hd : detectShotType a with
        | none => simp [actionShot, hd]
        | some r =>
          rcases detectShotType_cases a r hd with rfl | rfl | rfl | rfl | rfl | rfl | rfl <;>
            simp [actionShot, hd]
      · intro count k d
        rcases determineDialogueShotType_cases count d.character with h | h | h <;>
          simp [dlgShot, h]
      · intro c d hPc
        simpa [dlgAppend] using hPc
      · intro k
        rw [voShotsAux_none n st.scene_voice_overs k hvos]
        rfl
      · intro k c hC
        unfold closingShot at hC
        cases hls : sd.location with
        | none => rw [hls] at hC; exact absurd hC (by simp)
        | some l =>
          rw [hls] at hC
          simp only [Except.ok.injEq] at hC
          rw [← hC]
          rfl
    cases hl : sd.location with
    | none =>
      have hfs : finishScene sd n full st ab (Except.ok shots) =
          Except.error (PyErr.keyError "location") := by
        unfold finishScene
        rw [hl]
      rw [hfs]
      trivial
    | some loc =>
      cases htm : sd.time with
      | none =>
        have hfs : finishScene sd n full st ab (Except.ok shots) =
            Except.error (PyErr.keyError "time") := by
          unfold finishScene
          rw [hl, htm]
        rw [hfs]
        trivial
      | some tm =>
        obtain ⟨sc, hsc, hv, hs⟩ := finishScene_fields sd n full st ab shots loc tm hl htm
        rw [hsc]
        refine ⟨?_, ?_⟩
        · rw [hv]
          exact hvos
        · rw [hs]
          exact hall

/-- Claim C10: every VoiceOver built during scene content parsing has
timing during_scene, and consequently the transitional-voice-over rule
never fires: no shot of any successfully parsed scene has the VARIOUS
type. -/
theorem C10_no_transitional_voiceover :
    ∀ (ord : List String → List String) (sd : SceneData) (n : Nat) (full : String),
      (match processScene ord sd n full with
       | Except.ok sc =>
           sc.voice_overs.all voP = true ∧
           sc.shots.all (fun s => !(s.shot_type == "VARIOUS")) = true
       | Except.error _ => True) := by
  intro ord sd n full
  simp only [processScene]
  exact finishGen_noVarious ord sd n full _ _
    (foldl_vos sd.heading ((pySplitLines sd.text).drop 1) initState rfl)

end FilmCrew
